import Mathlib

/-!
# Camera_ZWO capture orchestration (cam_ZWO.cpp)

A shallow embedding of the parts of `cam_ZWO.cpp` that decide the region
reconciliation, the acquisition loop, the frame compositor, the gain mapping
and the binning bookkeeping of `Camera_ZWO::Connect` / `Camera_ZWO::Capture`.

Conventions of the embedding.

* A C++ `int` is an `Int`; every `+`, `-`, `*`, `/`, `&`, `~` of the scalar helpers
  and of the rectangle arithmetic is reduced to the signed 32 bit range
  (`wrapInt`), so the theorems about them carry the range hypotheses they need.
* Element counts and offsets into the transfer buffer and the image buffer
  (`frameSize`, `NPixels`, the indices of the copy loops) are mathematical
  integers: they address memory that was allocated with exactly these sizes.
* Memory is a total map from offsets (relative to the base pointer) to
  samples; a loop that runs `n` times is a recursion on `n`.
* Commands sent to the vendor SDK and calls of `DisconnectWithAlert` are
  recorded, in program order, in a trace of `Event`s. Values read from the
  device (control values, poll results, the interrupt flag, the watchdog) are
  supplied by an environment record.
-/

namespace CamZWO

/-! ## Machine integers -/

/-- Reduction of a mathematical integer to the signed 32 bit range of `int`. -/
def wrapInt (v : Int) : Int := (v + 2147483648) % 4294967296 - 2147483648

/-- The `int` sum `a + b`. -/
def iadd (a b : Int) : Int := wrapInt (a + b)

/-- The `int` difference `a - b`. -/
def isub (a b : Int) : Int := wrapInt (a - b)

/-- The `int` product `a * b`. -/
def imul (a b : Int) : Int := wrapInt (a * b)

/-- The `int` quotient `a / b`, truncating toward zero as in C++. -/
def idiv (a b : Int) : Int := wrapInt (Int.tdiv a b)

/-- The 32 bit two-complement bit pattern of an `int`, as a natural number. -/
def toBits (v : Int) : Nat := (v % 4294967296).toNat

/-- The `int` bitwise and `a & b`. -/
def iand (a b : Int) : Int := wrapInt (Nat.land (toBits a) (toBits b))

/-- The `int` bitwise complement `~a`. -/
def inot (a : Int) : Int := wrapInt (4294967295 - toBits a : Nat)

/-! ## Gain mapping (lines 73-81) -/

/-- Source `cam_gain`: `minval + pct * (maxval - minval) / 100`. -/
def cam_gain (minval maxval pct : Int) : Int :=
  iadd minval (idiv (imul pct (isub maxval minval)) 100)

/-- Source `gain_pct`: `(val - minval) * 100 / (maxval - minval)`. -/
def gain_pct (minval maxval val : Int) : Int :=
  idiv (imul (isub val minval) 100) (isub maxval minval)

/-! ## Alignment helpers (lines 403-411) -/

/-- Source `round_down`: `v & ~(m - 1)`. -/
def round_down (v m : Int) : Int :=
  iand v (inot (isub m 1))

/-- Source `round_up`: `round_down(v + m - 1, m)`. -/
def round_up (v m : Int) : Int :=
  round_down (isub (iadd v m) 1) m

/-! ## wxWidgets geometry types (library types used by the source) -/

/-- The wxWidgets `wxSize`: a width `x` and a height `y`. -/
structure wxSize where
  x : Int
  y : Int
deriving DecidableEq, Repr

/-- The wxWidgets `wxPoint`; the default constructor gives `(0, 0)`. -/
structure wxPoint where
  x : Int
  y : Int
deriving DecidableEq, Repr

/-- The wxWidgets `wxRect`: origin `(x, y)` and extent `width` by `height`. -/
structure wxRect where
  x : Int
  y : Int
  width : Int
  height : Int
deriving DecidableEq, Repr

/-- The `wxSize` accessor `GetWidth`. -/
def wxSize.GetWidth (s : wxSize) : Int := s.x

/-- The `wxSize` accessor `GetHeight`. -/
def wxSize.GetHeight (s : wxSize) : Int := s.y

/-- The `wxPoint` difference `a - b`, coordinate by coordinate. -/
def wxPoint.sub (a b : wxPoint) : wxPoint := ⟨isub a.x b.x, isub a.y b.y⟩

/-- The default constructed `wxRect()`: all four fields zero. -/
def wxRect.empty : wxRect := ⟨0, 0, 0, 0⟩

/-- The constructor `wxRect(const wxSize&)`: origin `(0, 0)` and the given size. -/
def wxRect.ofSize (s : wxSize) : wxRect := ⟨0, 0, s.x, s.y⟩

/-- The accessor `GetLeft`: `x`. -/
def wxRect.GetLeft (r : wxRect) : Int := r.x

/-- The accessor `GetTop`: `y`. -/
def wxRect.GetTop (r : wxRect) : Int := r.y

/-- The accessor `GetRight`: `x + width - 1`. -/
def wxRect.GetRight (r : wxRect) : Int := isub (iadd r.x r.width) 1

/-- The accessor `GetBottom`: `y + height - 1`. -/
def wxRect.GetBottom (r : wxRect) : Int := isub (iadd r.y r.height) 1

/-- The accessor `GetWidth`. -/
def wxRect.GetWidth (r : wxRect) : Int := r.width

/-- The accessor `GetHeight`. -/
def wxRect.GetHeight (r : wxRect) : Int := r.height

/-- The accessor `GetSize`: `(width, height)`. -/
def wxRect.GetSize (r : wxRect) : wxSize := ⟨r.width, r.height⟩

/-- The accessor `GetLeftTop`: `(x, y)`. -/
def wxRect.GetLeftTop (r : wxRect) : wxPoint := ⟨r.x, r.y⟩

/-- The mutator `SetLeft(left)`: `x = left`. -/
def wxRect.SetLeft (r : wxRect) (left : Int) : wxRect := { r with x := left }

/-- The mutator `SetRight(right)`: `width = right - x + 1`. -/
def wxRect.SetRight (r : wxRect) (right : Int) : wxRect :=
  { r with width := iadd (isub right r.x) 1 }

/-- The mutator `SetTop(top)`: `y = top`. -/
def wxRect.SetTop (r : wxRect) (top : Int) : wxRect := { r with y := top }

/-- The mutator `SetBottom(bottom)`: `height = bottom - y + 1`. -/
def wxRect.SetBottom (r : wxRect) (bottom : Int) : wxRect :=
  { r with height := iadd (isub bottom r.y) 1 }

/-! ## Samples, buffers and the output image -/

/-- An `unsigned char` sample of the transfer buffer. -/
abbrev Byte := Fin 256

/-- An `unsigned short` sample of the output image. -/
abbrev Pixel := Fin 65536

/-- The implicit conversion `unsigned char` to `unsigned short` (zero extension). -/
def widen (b : Byte) : Pixel := ⟨b.val, Nat.lt_trans b.isLt (by decide)⟩

/-- The transfer buffer `m_buffer`, as the bytes found at each offset. -/
abbrev Buffer := Int → Byte

/-- The samples of `usImage::ImageData`, as the values found at each offset. -/
abbrev Samples := Int → Pixel

/-- The fields of `usImage` that `Capture` touches. -/
structure usImage where
  NPixels : Int
  ImageData : Samples
  Subframe : wxRect

/-- Store of one sample: `p[i] = v`. -/
def writeAt (m : Samples) (i : Int) (v : Pixel) : Samples :=
  fun j => if j = i then v else m j

/-- Modelled from the spec: `usImage::Init(size)` is defined outside this file.
It reports failure (`true`) when the allocation fails; on success the image
is the caller-owned full-resolution buffer of `size.x * size.y` samples. The
contents of the buffer after `Init` are whatever the memory holds. -/
def usImage.Init (img : usImage) (size : wxSize) (allocFails : Bool) : Bool × usImage :=
  if allocFails then (true, img)
  else (false, { img with NPixels := size.GetWidth * size.GetHeight })

/-- Modelled from the spec: `usImage::Clear()` is defined outside this file.
The output buffer is fully cleared: all `NPixels` samples are set to the
background value `0`. -/
def usImage.Clear (img : usImage) : usImage :=
  { img with ImageData := fun i => if 0 ≤ i ∧ i < img.NPixels then 0 else img.ImageData i }

/-! ## Device commands and the camera state -/

/-- The control identifiers of the vendor SDK that the source names. -/
inductive ASI_CONTROL_TYPE where
  | ASI_GAIN
  | ASI_EXPOSURE
  | ASI_BANDWIDTHOVERLOAD
  | ASI_HARDWARE_BIN
  | ASI_COOLER_ON
  | ASI_OTHER
deriving DecidableEq, Repr

/-- The two arguments `Capture` passes to `DisconnectWithAlert`. -/
inductive CaptureFailType where
  | CAPT_FAIL_MEMORY
  | CAPT_FAIL_TIMEOUT
deriving DecidableEq, Repr

/-- The observable actions of the driver: commands pushed to the vendor SDK,
the alert escalation and the post-processing hooks. -/
inductive Event where
  | ASIOpenCamera
  | ASIInitCamera
  | ASICloseCamera
  | ASISetControlValue (ctl : ASI_CONTROL_TYPE) (value : Int)
  | ASISetROIFormat (width height bin : Int)
  | ASISetStartPos (x y : Int)
  | ASIStartVideoCapture
  | ASIStopVideoCapture
  | DisconnectWithAlert (t : CaptureFailType)
  | SubtractDark
  | QuickLRecon
deriving DecidableEq, Repr

/-- The members of `Camera_ZWO` (and of its base `GuideCamera`) that `Connect`,
`StopCapture`, `Disconnect` and `Capture` read or write. `Binning`,
`MaxBinning` and `GuideCameraGain` are declared in the base class. -/
structure Camera where
  Connected : Bool
  Binning : Int
  MaxBinning : Int
  m_prevBinning : Int
  m_maxSize : wxSize
  FullSize : wxSize
  m_frame : wxRect
  m_capturing : Bool
  UseSubframes : Bool
  HasGainControl : Bool
  HasCooler : Bool
  m_minGain : Int
  m_maxGain : Int
  GuideCameraGain : Int
  m_isColor : Bool
  m_cameraId : Int
  m_buffer : Buffer

/-- Source `Camera_ZWO::StopCapture` (lines 322-331). -/
def Camera.StopCapture (cam : Camera) : Camera × List Event :=
  if cam.m_capturing then
    ({ cam with m_capturing := false }, [Event.ASIStopVideoCapture])
  else
    (cam, [])

/-- Source `Camera_ZWO::Disconnect` (lines 333-344). -/
def Camera.Disconnect (cam : Camera) : Camera × List Event :=
  let stopped := cam.StopCapture
  ({ stopped.1 with Connected := false }, stopped.2 ++ [Event.ASICloseCamera])

/-! ## Connect (lines 172-320) -/

/-- The fields of the vendor record `ASI_CAMERA_INFO` that `Connect` reads.
`SupportedBins` is the fixed-size array of the record (its length is
`WXSIZEOF(info.SupportedBins)`), terminated by a zero when shorter;
`afterSupportedBins` is the word stored right behind the array. -/
structure ASI_CAMERA_INFO where
  IsColorCam : Bool
  SupportedBins : List Int
  afterSupportedBins : Int
  MaxWidth : Int
  MaxHeight : Int

/-- The fields of the vendor record `ASI_CONTROL_CAPS` that `Connect` reads. -/
structure ASI_CONTROL_CAPS where
  ControlType : ASI_CONTROL_TYPE
  IsWritable : Bool
  MinValue : Int
  MaxValue : Int

/-- The read `info.SupportedBins[i]`; index `WXSIZEOF(info.SupportedBins)` is
one past the array and yields the word behind it. -/
def ASI_CAMERA_INFO.binAt (info : ASI_CAMERA_INFO) (i : Nat) : Int :=
  if i < info.SupportedBins.length then info.SupportedBins.getD i 0
  else info.afterSupportedBins

/-- The loop of lines 235-242 from index `i` on, with `remaining` iterations
left before the bound `i <= WXSIZEOF(info.SupportedBins)` stops it. -/
def maxBinLoop (info : ASI_CAMERA_INFO) : Nat → Nat → Int → Int
  | 0, _, maxBin => maxBin
  | remaining + 1, i, maxBin =>
    if info.binAt i = 0 then maxBin
    else maxBinLoop info remaining (i + 1)
      (if info.binAt i > maxBin then info.binAt i else maxBin)

/-- Lines 234-242: `maxBin` starts at 1 and `i` runs over `0 .. WXSIZEOF` inclusive. -/
def maxSupportedBin (info : ASI_CAMERA_INFO) : Int :=
  maxBinLoop info (info.SupportedBins.length + 1) 0 1

/-- The supported binning factors reported by the device: the non-zero
leading entries of `info.SupportedBins`. -/
def supportedBinningFactors (info : ASI_CAMERA_INFO) : List Int :=
  info.SupportedBins.takeWhile (fun b => b ≠ 0)

/-- The answers of the vendor SDK during `Connect`. `idx` is the camera index
resolved from the identifier string; `controls = none` is a failing
`ASIGetNumOfControls`, otherwise one entry per control index, `none` where
`ASIGetControlCaps` fails. -/
structure ConnectEnv where
  dllLoaded : Bool
  idx : Int
  numCameras : Int
  property : Option ASI_CAMERA_INFO
  openOk : Bool
  initOk : Bool
  controls : Option (List (Option ASI_CONTROL_CAPS))

/-- One iteration of the loop of lines 274-309. -/
def applyControlCaps (acc : Camera × List Event) (caps : Option ASI_CONTROL_CAPS) :
    Camera × List Event :=
  match caps with
  | none => acc
  | some c =>
    match c.ControlType with
    | ASI_CONTROL_TYPE.ASI_GAIN =>
      if c.IsWritable then
        ({ acc.1 with HasGainControl := true, m_minGain := c.MinValue, m_maxGain := c.MaxValue },
          acc.2)
      else acc
    | ASI_CONTROL_TYPE.ASI_BANDWIDTHOVERLOAD =>
      (acc.1, acc.2 ++ [Event.ASISetControlValue ASI_CONTROL_TYPE.ASI_BANDWIDTHOVERLOAD c.MinValue])
    | ASI_CONTROL_TYPE.ASI_COOLER_ON =>
      if c.IsWritable then ({ acc.1 with HasCooler := true }, acc.2) else acc
    | _ => acc

/-- The outcome of `Connect`: the returned flag (`true` is failure), the
camera state and the commands issued. -/
structure ConnectResult where
  ret : Bool
  cam : Camera
  trace : List Event

/-- Source `Camera_ZWO::Connect` (lines 172-320). -/
def Connect (cam : Camera) (env : ConnectEnv) : ConnectResult :=
  if !env.dllLoaded then ⟨true, cam, []⟩
  else if env.numCameras = 0 then ⟨true, cam, []⟩
  else if env.idx < 0 ∨ env.idx ≥ env.numCameras then ⟨true, cam, []⟩
  else
    match env.property with
    | none => ⟨true, cam, []⟩
    | some info =>
      if !env.openOk then ⟨true, cam, [Event.ASIOpenCamera]⟩
      else if !env.initOk then
        ⟨true, cam, [Event.ASIOpenCamera, Event.ASIInitCamera, Event.ASICloseCamera]⟩
      else
        let cam1 := { cam with m_cameraId := env.idx, Connected := true,
                               m_isColor := info.IsColorCam }
        let cam2 := { cam1 with MaxBinning := maxSupportedBin info }
        let cam3 := if cam2.Binning > cam2.MaxBinning then
                      { cam2 with Binning := cam2.MaxBinning } else cam2
        let cam4 := { cam3 with m_maxSize := ⟨info.MaxWidth, info.MaxHeight⟩ }
        let cam5 := { cam4 with
                        FullSize := ⟨idiv cam4.m_maxSize.x cam4.Binning,
                                     idiv cam4.m_maxSize.y cam4.Binning⟩,
                        m_prevBinning := cam4.Binning }
        match env.controls with
        | none =>
          let d := cam5.Disconnect
          ⟨true, d.1, [Event.ASIOpenCamera, Event.ASIInitCamera] ++ d.2⟩
        | some caps =>
          let cam6 := { cam5 with HasGainControl := false, HasCooler := false }
          let looped := caps.foldl applyControlCaps (cam6, [])
          let cam7 := { looped.1 with m_frame := wxRect.ofSize looped.1.FullSize }
          ⟨false, cam7,
            [Event.ASIOpenCamera, Event.ASIInitCamera] ++ looped.2 ++
            [Event.ASISetStartPos cam7.m_frame.GetLeft cam7.m_frame.GetTop,
             Event.ASISetROIFormat cam7.m_frame.GetWidth cam7.m_frame.GetHeight cam7.Binning]⟩

/-! ## Capture (lines 429-580) -/

/-- Lines 431-438: the binning check. Returns the camera and `binning_change`. -/
def Camera.checkBinning (cam : Camera) : Camera × Bool :=
  if cam.Binning ≠ cam.m_prevBinning then
    ({ cam with
        FullSize := ⟨idiv cam.m_maxSize.x cam.Binning, idiv cam.m_maxSize.y cam.Binning⟩,
        m_prevBinning := cam.Binning }, true)
  else
    (cam, false)

/-- The locals `useSubframe`, `frame` and `subframePos` after lines 446-469. -/
structure Region where
  useSubframe : Bool
  frame : wxRect
  subframePos : wxPoint
deriving DecidableEq, Repr

/-- Lines 446-469: the capture region for a requested sub-frame. -/
def captureRegion (UseSubframes : Bool) (FullSize : wxSize) (subframe : wxRect) : Region :=
  let useSubframe :=
    if subframe.width ≤ 0 ∨ subframe.height ≤ 0 then false else UseSubframes
  if useSubframe then
    let frame := wxRect.empty
    let frame := frame.SetLeft (round_down subframe.GetLeft 32)
    let frame := frame.SetRight (isub (round_up (iadd subframe.GetRight 1) 32) 1)
    let frame := frame.SetTop (round_down subframe.GetTop 32)
    let frame := frame.SetBottom (isub (round_up (iadd subframe.GetBottom 1) 32) 1)
    ⟨true, frame, subframe.GetLeftTop.sub frame.GetLeftTop⟩
  else
    ⟨false, wxRect.ofSize FullSize, ⟨0, 0⟩⟩

/-- One poll of `ASIGetVideoData` in the acquisition loop together with what
the loop would read right after it: `data = some d` is `ASI_SUCCESS` with
the frame `d`; `interrupt` is `WorkerThread::InterruptRequested()`; `expired`
is `watchdog.Expired()`. -/
structure Poll where
  data : Option Buffer
  interrupt : Bool
  expired : Bool

/-- Modelled from the spec: the capture options carry the two flags
`subtractDark` and `reconstructColor`; the bit masks `CAPTURE_SUBTRACT_DARK`
and `CAPTURE_RECON` tested by the source are declared outside this file. -/
structure CaptureOptions where
  subtractDark : Bool
  reconstructColor : Bool
deriving DecidableEq, Repr

/-- What the surroundings answer during one `Capture`: whether the allocation
in `img.Init` fails, the exposure and gain the device reports (`none` when
the query fails), the outcome of each zero-wait drain of the flusher (`some`
carries the samples the stale frame leaves in the image buffer), the polls of
the acquisition loop in order, and the two post-processing routines. -/
structure CaptureEnv where
  allocFails : Bool
  curExposure : Option Int
  curGain : Option Int
  stale : List (Option Samples)
  polls : List Poll
  SubtractDark : usImage → usImage
  QuickLRecon : usImage → usImage

/-- Lines 471-488: push exposure and gain when they differ from what the
device reports. -/
def applyExposureGain (cam : Camera) (duration : Int) (env : CaptureEnv) : List Event :=
  let exposureUS := imul duration 1000
  let ev1 := match env.curExposure with
    | some cur_exp =>
      if cur_exp ≠ exposureUS then
        [Event.ASISetControlValue ASI_CONTROL_TYPE.ASI_EXPOSURE exposureUS] else []
    | none => []
  let new_gain := cam_gain cam.m_minGain cam.m_maxGain cam.GuideCameraGain
  let ev2 := match env.curGain with
    | some cur_gain =>
      if new_gain ≠ cur_gain then
        [Event.ASISetControlValue ASI_CONTROL_TYPE.ASI_GAIN new_gain] else []
    | none => []
  ev1 ++ ev2

/-- Line 490: `size_change`. -/
def sizeChange (frame m_frame : wxRect) : Bool :=
  decide (frame.GetSize ≠ m_frame.GetSize)

/-- Line 491: `pos_change`. -/
def posChange (frame m_frame : wxRect) : Bool :=
  decide (frame.GetLeftTop ≠ m_frame.GetLeftTop)

/-- Lines 490-513: mode-change detection and reconfiguration of the device. -/
def reconfigure (cam : Camera) (binning_change : Bool) (frame : wxRect) :
    Camera × List Event :=
  let size_change := sizeChange frame cam.m_frame
  let pos_change := posChange frame cam.m_frame
  let cam1 := if size_change || pos_change then { cam with m_frame := frame } else cam
  let step :=
    if size_change || binning_change then
      let stopped := cam1.StopCapture
      (stopped.1, stopped.2 ++
        [Event.ASISetROIFormat frame.GetWidth frame.GetHeight cam1.Binning])
    else (cam1, [])
  let ev := if pos_change then [Event.ASISetStartPos frame.GetLeft frame.GetTop] else []
  (step.1, step.2 ++ ev)

/-- Source `flush_buffered_image` (lines 413-427): at most `remaining` more
drains, stopping at the first one that yields no frame. -/
def flush_buffered_image (img : usImage) : Nat → List (Option Samples) → usImage
  | 0, _ => img
  | _ + 1, [] => img
  | _ + 1, none :: _ => img
  | remaining + 1, some f :: rest =>
    flush_buffered_image
      { img with ImageData := fun i => if 0 ≤ i ∧ i < img.NPixels then f i else img.ImageData i }
      remaining rest

/-- The constant `NUM_IMAGE_BUFFERS` of `flush_buffered_image`. -/
def NUM_IMAGE_BUFFERS : Nat := 2

/-- Lines 521-526: start streaming when it is not active. -/
def Camera.startIfNotCapturing (cam : Camera) : Camera × List Event :=
  if !cam.m_capturing then
    ({ cam with m_capturing := true }, [Event.ASIStartVideoCapture])
  else
    (cam, [])

/-- The ways the loop of lines 534-551 can stand after the supplied polls:
left through `break` with the frame in the buffer, left through the
interrupt branch, left through the watchdog branch, or still iterating. -/
inductive Acquired where
  | frameReady (buffer : Buffer)
  | cancelled
  | timedOut
  | polling

/-- Lines 534-551: the acquisition loop over the polls in order. A
successful poll stores `frameSize` bytes in the transfer buffer. -/
def acquire (frameSize : Int) (buffer : Buffer) : List Poll → Acquired
  | [] => Acquired.polling
  | p :: rest =>
    match p.data with
    | some d =>
      Acquired.frameReady (fun i => if 0 ≤ i ∧ i < frameSize then d i else buffer i)
    | none =>
      if p.interrupt then Acquired.cancelled
      else if p.expired then Acquired.timedOut
      else acquire frameSize buffer rest

/-- Lines 564-565: the inner loop `*dst++ = *src++`, `n` iterations from
source offset `s` and destination offset `d`. -/
def copyRow (buffer : Buffer) (dst : Samples) (s d : Int) : Nat → Samples
  | 0 => dst
  | n + 1 => copyRow buffer (writeAt dst d (widen (buffer s))) (s + 1) (d + 1) n

/-- Lines 560-566: the outer loop from row `y` on, `n` rows left. -/
def copyRows (buffer : Buffer) (frameWidth fullWidth : Int) (subframe : wxRect)
    (subframePos : wxPoint) (dst : Samples) (y : Int) : Nat → Samples
  | 0 => dst
  | n + 1 =>
    copyRows buffer frameWidth fullWidth subframe subframePos
      (copyRow buffer dst
        ((y + subframePos.y) * frameWidth + subframePos.x)
        ((y + subframe.y) * fullWidth + subframe.x)
        subframe.width.toNat)
      (y + 1) n

/-- Lines 570-571: the linear copy from index `i` on, `n` samples left. -/
def linearCopy (buffer : Buffer) (dst : Samples) (i : Int) : Nat → Samples
  | 0 => dst
  | n + 1 => linearCopy buffer (writeAt dst i (widen (buffer i))) (i + 1) n

/-- Lines 553-572: the frame compositor. -/
def composite (buffer : Buffer) (img : usImage) (region : Region) (subframe : wxRect)
    (FullSize : wxSize) : usImage :=
  if region.useSubframe then
    let img1 := { img with Subframe := subframe }
    let img2 := img1.Clear
    { img2 with
        ImageData := copyRows buffer region.frame.width FullSize.GetWidth subframe
          region.subframePos img2.ImageData 0 subframe.height.toNat }
  else
    { img with ImageData := linearCopy buffer img.ImageData 0 img.NPixels.toNat }

/-- Lines 574-577: the optional post-processing hooks. -/
def postProcess (cam : Camera) (options : CaptureOptions) (env : CaptureEnv)
    (img : usImage) : usImage × List Event :=
  let s1 := if options.subtractDark then (env.SubtractDark img, [Event.SubtractDark])
            else (img, [])
  if cam.m_isColor ∧ cam.Binning = 1 ∧ options.reconstructColor then
    (env.QuickLRecon s1.1, s1.2 ++ [Event.QuickLRecon])
  else s1

/-- The outcome of `Capture` on the supplied polls: `ret = some b` when the
call returned `b` (`true` is failure), `ret = none` while the acquisition
loop is still polling; the camera state, the image and the commands issued
so far. -/
structure CaptureResult where
  ret : Option Bool
  cam : Camera
  img : usImage
  trace : List Event

/-- Source `Camera_ZWO::Capture` (lines 429-580). `DisconnectWithAlert` belongs
to the base class and is recorded as an event. -/
def Capture (cam : Camera) (duration : Int) (img : usImage) (options : CaptureOptions)
    (subframe : wxRect) (env : CaptureEnv) : CaptureResult :=
  let checked := cam.checkBinning
  let init := img.Init checked.1.FullSize env.allocFails
  if init.1 then
    ⟨some true, checked.1, init.2, [Event.DisconnectWithAlert CaptureFailType.CAPT_FAIL_MEMORY]⟩
  else
    let region := captureRegion checked.1.UseSubframes checked.1.FullSize subframe
    let ev0 := applyExposureGain checked.1 duration env
    let rc := reconfigure checked.1 checked.2 region.frame
    let flushed := flush_buffered_image init.2 NUM_IMAGE_BUFFERS env.stale
    let started := rc.1.startIfNotCapturing
    let frameSize := region.frame.GetWidth * region.frame.GetHeight
    match acquire frameSize started.1.m_buffer env.polls with
    | Acquired.polling => ⟨none, started.1, flushed, ev0 ++ rc.2 ++ started.2⟩
    | Acquired.cancelled =>
      let stopped := started.1.StopCapture
      ⟨some true, stopped.1, flushed, ev0 ++ rc.2 ++ started.2 ++ stopped.2⟩
    | Acquired.timedOut =>
      let stopped := started.1.StopCapture
      ⟨some true, stopped.1, flushed,
        ev0 ++ rc.2 ++ started.2 ++ stopped.2 ++
          [Event.DisconnectWithAlert CaptureFailType.CAPT_FAIL_TIMEOUT]⟩
    | Acquired.frameReady buffer =>
      let cam3 := { started.1 with m_buffer := buffer }
      let composed := composite cam3.m_buffer flushed region subframe cam3.FullSize
      let processed := postProcess cam3 options env composed
      ⟨some false, cam3, processed.1, ev0 ++ rc.2 ++ started.2 ++ processed.2⟩

/-! ## Program points of `Capture` -/

/-- The locals `useSubframe`, `frame` and `subframePos` of a `Capture` call
entered in state `cam` (after line 469): the region is computed from the
`FullSize` left by the binning check. -/
def Capture.region (cam : Camera) (subframe : wxRect) : Region :=
  captureRegion cam.checkBinning.1.UseSubframes cam.checkBinning.1.FullSize subframe

/-- The camera state when a `Capture` call entered in state `cam` reaches
line 515, and the commands issued by lines 490-513. -/
def Capture.reconfigured (cam : Camera) (subframe : wxRect) : Camera × List Event :=
  reconfigure cam.checkBinning.1 cam.checkBinning.2 (Capture.region cam subframe).frame

/-- The image when a `Capture` call that passed `img.Init` reaches line 521. -/
def Capture.flushed (cam : Camera) (img : usImage) (env : CaptureEnv) : usImage :=
  flush_buffered_image (img.Init cam.checkBinning.1.FullSize env.allocFails).2
    NUM_IMAGE_BUFFERS env.stale

/-- The image when a `Capture` call that passed `img.Init` and left the
acquisition loop with `buffer` in the transfer buffer reaches line 574: after
the compositing step, before dark subtraction and colour reconstruction. -/
def Capture.composed (cam : Camera) (img : usImage) (subframe : wxRect) (env : CaptureEnv)
    (buffer : Buffer) : usImage :=
  composite buffer (Capture.flushed cam img env) (Capture.region cam subframe) subframe
    cam.checkBinning.1.FullSize

/-! ## Sample inputs -/

/-- A connected monochrome camera with a 1280 by 960 sensor at binning 1,
idle, with the full frame as the active region. -/
def sampleCamera : Camera :=
  { Connected := true, Binning := 1, MaxBinning := 2, m_prevBinning := 1,
    m_maxSize := ⟨1280, 960⟩, FullSize := ⟨1280, 960⟩, m_frame := ⟨0, 0, 1280, 960⟩,
    m_capturing := false, UseSubframes := true, HasGainControl := true, HasCooler := false,
    m_minGain := 0, m_maxGain := 300, GuideCameraGain := 50, m_isColor := false,
    m_cameraId := 0, m_buffer := fun _ => 0 }

/-- An image object that has not been initialised yet. -/
def sampleImage : usImage := ⟨0, fun _ => 0, wxRect.empty⟩

/-- A device that reports the exposure and gain already requested, has no
stale frame buffered and answers the acquisition polls as listed. -/
def sampleEnv (polls : List Poll) : CaptureEnv :=
  { allocFails := false, curExposure := some 50000, curGain := some 150, stale := [none],
    polls := polls, SubtractDark := fun i => i, QuickLRecon := fun i => i }

/-- A failed poll with no interrupt pending and the watchdog still running. -/
def idlePoll : Poll := ⟨none, false, false⟩

/-- A failed poll with the interrupt flag raised and the watchdog expired. -/
def interruptedPoll : Poll := ⟨none, true, true⟩

/-- A failed poll with no interrupt pending and the watchdog expired. -/
def expiredPoll : Poll := ⟨none, false, true⟩

/-- A frame whose byte at offset `i` is `i mod 256`. -/
def sampleFrame : Buffer := fun i => ⟨(i % 256).toNat % 256, Nat.mod_lt _ (by decide)⟩

/-- A successful poll delivering `sampleFrame`. -/
def framePoll : Poll := ⟨some sampleFrame, false, false⟩

/-- A camera record reporting the binning factors 1, 2 and 4 in an array of
sixteen entries, and a 1280 by 960 sensor. -/
def sampleInfo : ASI_CAMERA_INFO :=
  { IsColorCam := false,
    SupportedBins := [1, 2, 4, 0, 0, 0, 0, 0, 0, 0, 0, 0, 0, 0, 0, 0],
    afterSupportedBins := 0, MaxWidth := 1280, MaxHeight := 960 }

/-- A device on which every step of the connection succeeds and which exposes
a writable gain control with range 0..300. -/
def sampleConnectEnv : ConnectEnv :=
  { dllLoaded := true, idx := 0, numCameras := 1, property := some sampleInfo,
    openOk := true, initOk := true,
    controls := some [some ⟨ASI_CONTROL_TYPE.ASI_GAIN, true, 0, 300⟩] }

/-- The options with no post-processing requested. -/
def noOptions : CaptureOptions := ⟨false, false⟩

/-! ## Arithmetic facts used throughout -/

theorem wrapInt_eq (v : Int) (h1 : -2147483648 ≤ v) (h2 : v ≤ 2147483647) : wrapInt v = v := by
  unfold wrapInt; omega

theorem testBit_mask (i : Nat) :
    Nat.testBit 4294967264 i = (decide (5 ≤ i) && decide (i < 32)) := by
  have e : 4294967264 = 2 ^ 5 * (2 ^ 27 - 1) + 0 := by norm_num
  rw [e, @Nat.testBit_mul_pow_two_add (2 ^ 27 - 1) 0 5 (by norm_num) i]
  by_cases hi : i < 5
  · simp [hi]
  · simp only [hi, if_false, Nat.testBit_two_pow_sub_one]
    have : 5 ≤ i := by omega
    simp [this]; omega

theorem nat_land_mask (u : Nat) (hu : u < 4294967296) :
    Nat.land u 4294967264 = 32 * (u / 32) := by
  apply Nat.eq_of_testBit_eq
  intro i
  show Nat.testBit (u &&& 4294967264) i = _
  rw [Nat.testBit_and, testBit_mask]
  have h := @Nat.testBit_mul_pow_two_add (u / 32) 0 5 (by norm_num) i
  simp only [Nat.add_zero] at h
  have e : 32 * (u / 32) = 2 ^ 5 * (u / 32) := by norm_num
  rw [e, h]
  have hs : u / 32 = u >>> 5 := by rw [Nat.shiftRight_eq_div_pow]
  by_cases hi : i < 5
  · have : ¬ 5 ≤ i := by omega
    simp [hi, this]
  · have h5 : 5 ≤ i := by omega
    simp only [hi, if_false, h5, decide_True, Bool.true_and]
    rw [hs, Nat.testBit_shiftRight]
    have e2 : 5 + (i - 5) = i := by omega
    rw [e2]
    by_cases h32 : i < 32
    · simp [h32]
    · have hlt : u < 2 ^ i := lt_of_lt_of_le hu (by
        have e3 : (4294967296 : Nat) = 2 ^ 32 := by norm_num
        rw [e3]; exact Nat.pow_le_pow_right (by norm_num) (by omega))
      simp [h32, Nat.testBit_lt_two_pow hlt]

theorem iand_inot_31 (v : Int) (h1 : -2147483648 ≤ v) (h2 : v ≤ 2147483647) :
    iand v (inot 31) = 32 * (v / 32) := by
  have e : inot 31 = -32 := by decide
  have e2 : toBits (-32) = 4294967264 := by decide
  rw [e]
  unfold iand
  rw [e2, nat_land_mask _ (by unfold toBits; omega)]
  unfold toBits wrapInt
  push_cast
  omega

theorem round_down_32 (v : Int) (h1 : -2147483648 ≤ v) (h2 : v ≤ 2147483647) :
    round_down v 32 = 32 * (v / 32) := by
  have h : isub 32 1 = 31 := by decide
  unfold round_down
  rw [h, iand_inot_31 v h1 h2]

theorem round_up_32 (v : Int) (h1 : -2147483648 ≤ v) (h2 : v + 32 ≤ 2147483647) :
    round_up v 32 = 32 * ((v + 31) / 32) := by
  have e : isub (iadd v 32) 1 = v + 31 := by unfold isub iadd wrapInt; omega
  unfold round_up
  rw [e, round_down_32 _ (by omega) (by omega)]

/-- The region computed for a positive sub-frame at a non-negative origin,
in closed form. -/
theorem captureRegion_eq (FullSize : wxSize) (sub : wxRect)
    (hx : 0 ≤ sub.x) (hy : 0 ≤ sub.y) (hw : 0 < sub.width) (hh : 0 < sub.height)
    (hxo : sub.x + sub.width + 32 ≤ 2147483647)
    (hyo : sub.y + sub.height + 32 ≤ 2147483647) :
    captureRegion true FullSize sub =
      ⟨true,
       ⟨32 * (sub.x / 32), 32 * (sub.y / 32),
        32 * ((sub.x + sub.width + 31) / 32) - 32 * (sub.x / 32),
        32 * ((sub.y + sub.height + 31) / 32) - 32 * (sub.y / 32)⟩,
       ⟨sub.x - 32 * (sub.x / 32), sub.y - 32 * (sub.y / 32)⟩⟩ := by
  have e1 : iadd sub.GetRight 1 = sub.x + sub.width := by
    unfold wxRect.GetRight isub iadd wrapInt; omega
  have e2 : iadd sub.GetBottom 1 = sub.y + sub.height := by
    unfold wxRect.GetBottom isub iadd wrapInt; omega
  have c : ¬ (sub.width ≤ 0 ∨ sub.height ≤ 0) := by omega
  have e3 : round_down sub.GetLeft 32 = 32 * (sub.x / 32) :=
    round_down_32 _ (by unfold wxRect.GetLeft; omega) (by unfold wxRect.GetLeft; omega)
  have e4 : round_down sub.GetTop 32 = 32 * (sub.y / 32) :=
    round_down_32 _ (by unfold wxRect.GetTop; omega) (by unfold wxRect.GetTop; omega)
  simp only [captureRegion, c, if_false, if_true, e1, e2, e3, e4]
  rw [round_up_32 _ (by omega) (by omega), round_up_32 _ (by omega) (by omega)]
  simp only [wxRect.GetLeft, wxRect.GetTop, wxRect.SetLeft, wxRect.SetRight,
    wxRect.SetTop, wxRect.SetBottom, wxRect.empty, wxPoint.sub, wxRect.GetLeftTop]
  simp only [Region.mk.injEq, wxRect.mk.injEq, wxPoint.mk.injEq, true_and]
  unfold isub iadd wrapInt
  refine ⟨⟨?_, ?_⟩, ?_, ?_⟩ <;> omega

/-! ## C1: region alignment -/

/-- C1. For every requested sub-frame with positive width and height at a
non-negative origin (sub-frames enabled, no `int` overflow in the rounding),
whatever the full-frame size is, the capture region built by `Capture` has
left, top, left+width and top+height multiples of 32, contains the requested
rectangle on all four sides, moves each edge by fewer than 32 pixels, and the
recorded `subframePos` is the requested origin minus the region origin, with
both coordinates in 0..31. -/
theorem captureRegion_aligned (FullSize : wxSize) (sub : wxRect)
    (hx : 0 ≤ sub.x) (hy : 0 ≤ sub.y) (hw : 0 < sub.width) (hh : 0 < sub.height)
    (hxo : sub.x + sub.width + 32 ≤ 2147483647)
    (hyo : sub.y + sub.height + 32 ≤ 2147483647) :
    (captureRegion true FullSize sub).useSubframe = true ∧
    (32 ∣ (captureRegion true FullSize sub).frame.GetLeft ∧
     32 ∣ (captureRegion true FullSize sub).frame.GetTop ∧
     32 ∣ (captureRegion true FullSize sub).frame.GetLeft +
            (captureRegion true FullSize sub).frame.GetWidth ∧
     32 ∣ (captureRegion true FullSize sub).frame.GetTop +
            (captureRegion true FullSize sub).frame.GetHeight) ∧
    ((captureRegion true FullSize sub).frame.GetLeft ≤ sub.GetLeft ∧
     (captureRegion true FullSize sub).frame.GetTop ≤ sub.GetTop ∧
     sub.GetRight ≤ (captureRegion true FullSize sub).frame.GetRight ∧
     sub.GetBottom ≤ (captureRegion true FullSize sub).frame.GetBottom) ∧
    (sub.GetLeft - (captureRegion true FullSize sub).frame.GetLeft < 32 ∧
     sub.GetTop - (captureRegion true FullSize sub).frame.GetTop < 32 ∧
     (captureRegion true FullSize sub).frame.GetRight - sub.GetRight < 32 ∧
     (captureRegion true FullSize sub).frame.GetBottom - sub.GetBottom < 32) ∧
    ((captureRegion true FullSize sub).subframePos.x =
        sub.GetLeft - (captureRegion true FullSize sub).frame.GetLeft ∧
     (captureRegion true FullSize sub).subframePos.y =
        sub.GetTop - (captureRegion true FullSize sub).frame.GetTop ∧
     0 ≤ (captureRegion true FullSize sub).subframePos.x ∧
     (captureRegion true FullSize sub).subframePos.x ≤ 31 ∧
     0 ≤ (captureRegion true FullSize sub).subframePos.y ∧
     (captureRegion true FullSize sub).subframePos.y ≤ 31) := by
  rw [captureRegion_eq FullSize sub hx hy hw hh hxo hyo]
  simp only [wxRect.GetLeft, wxRect.GetTop, wxRect.GetWidth, wxRect.GetHeight,
    wxRect.GetRight, wxRect.GetBottom]
  unfold isub iadd wrapInt
  refine ⟨?_, ⟨?_, ?_, ?_, ?_⟩, ⟨?_, ?_, ?_, ?_⟩, ⟨?_, ?_, ?_, ?_⟩, ?_, ?_, ?_, ?_, ?_, ?_⟩ <;>
    first | trivial | omega

/-- C1 at the sub-frame (37, 50) of 100 by 60 on a 1280 by 960 sensor. -/
theorem captureRegion_aligned_witness :
    (captureRegion true ⟨1280, 960⟩ ⟨37, 50, 100, 60⟩).frame = ⟨32, 32, 128, 96⟩ ∧
    (captureRegion true ⟨1280, 960⟩ ⟨37, 50, 100, 60⟩).subframePos = ⟨5, 18⟩ ∧
    32 ∣ (captureRegion true ⟨1280, 960⟩ ⟨37, 50, 100, 60⟩).frame.GetLeft +
           (captureRegion true ⟨1280, 960⟩ ⟨37, 50, 100, 60⟩).frame.GetWidth :=
  ⟨by decide, by decide,
   (captureRegion_aligned ⟨1280, 960⟩ ⟨37, 50, 100, 60⟩ (by decide) (by decide) (by decide)
      (by decide) (by decide) (by decide)).2.1.2.2.1⟩

/-! ## C9 and C8: the gain mapping -/

/-- The value `cam_gain` computes when `100 * (maxval - minval)` fits an `int`:
no intermediate result wraps and the quotient is the floor. -/
theorem cam_gain_eq (minval maxval pct : Int)
    (hlo : -2147483648 ≤ minval) (hhi : maxval ≤ 2147483647) (hle : minval ≤ maxval)
    (hov : 100 * (maxval - minval) ≤ 2147483647) (h0 : 0 ≤ pct) (h100 : pct ≤ 100) :
    cam_gain minval maxval pct = minval + pct * (maxval - minval) / 100 := by
  have hd : 0 ≤ maxval - minval := by omega
  have hp0 : 0 ≤ pct * (maxval - minval) := Int.mul_nonneg h0 hd
  have hp1 : pct * (maxval - minval) ≤ 100 * (maxval - minval) :=
    Int.mul_le_mul_of_nonneg_right h100 hd
  have e1 : isub maxval minval = maxval - minval := wrapInt_eq _ (by omega) (by omega)
  have e2 : imul pct (maxval - minval) = pct * (maxval - minval) :=
    wrapInt_eq _ (by omega) (by omega)
  have e3 : Int.tdiv (pct * (maxval - minval)) 100 = pct * (maxval - minval) / 100 :=
    Int.tdiv_eq_ediv hp0 (by decide)
  have e4 : idiv (pct * (maxval - minval)) 100 = pct * (maxval - minval) / 100 := by
    unfold idiv; rw [e3]; exact wrapInt_eq _ (by omega) (by omega)
  unfold cam_gain
  rw [e1, e2, e4]
  exact wrapInt_eq _ (by omega) (by omega)

/-- C9. For every gain range `minval <= maxval` of `int`s with
`100 * (maxval - minval)` not overflowing, `cam_gain` maps 0 to `minval` and 100
to `maxval`, and every percentage in 0..100 to a value in `[minval, maxval]`. -/
theorem cam_gain_endpoints (minval maxval : Int)
    (hlo : -2147483648 ≤ minval) (hhi : maxval ≤ 2147483647) (hle : minval ≤ maxval)
    (hov : 100 * (maxval - minval) ≤ 2147483647) :
    cam_gain minval maxval 0 = minval ∧
    cam_gain minval maxval 100 = maxval ∧
    ∀ pct : Int, 0 ≤ pct → pct ≤ 100 →
      minval ≤ cam_gain minval maxval pct ∧ cam_gain minval maxval pct ≤ maxval := by
  refine ⟨?_, ?_, ?_⟩
  · rw [cam_gain_eq minval maxval 0 hlo hhi hle hov (by decide) (by decide)]
    omega
  · rw [cam_gain_eq minval maxval 100 hlo hhi hle hov (by decide) (by decide)]
    omega
  · intro pct h0 h100
    rw [cam_gain_eq minval maxval pct hlo hhi hle hov h0 h100]
    have hd : 0 ≤ maxval - minval := by omega
    have hp0 : 0 ≤ pct * (maxval - minval) := Int.mul_nonneg h0 hd
    have hp1 : pct * (maxval - minval) ≤ 100 * (maxval - minval) :=
      Int.mul_le_mul_of_nonneg_right h100 hd
    constructor <;> omega

/-- C9 on the gain range 0..300: the end points and the image of 37 percent. -/
theorem cam_gain_endpoints_witness :
    cam_gain 0 300 0 = 0 ∧ cam_gain 0 300 100 = 300 ∧
    (0 ≤ cam_gain 0 300 37 ∧ cam_gain 0 300 37 ≤ 300) ∧ cam_gain 0 300 37 = 111 :=
  ⟨(cam_gain_endpoints 0 300 (by decide) (by decide) (by decide) (by decide)).1,
   (cam_gain_endpoints 0 300 (by decide) (by decide) (by decide) (by decide)).2.1,
   (cam_gain_endpoints 0 300 (by decide) (by decide) (by decide) (by decide)).2.2 37
      (by decide) (by decide),
   by decide⟩

/-- C8 as stated fails: on the gain range 0..10 the percentage 55 is mapped to
the device gain 5, which `gain_pct` maps back to 50. -/
theorem gain_pct_not_inverse :
    (0 : Int) < 10 ∧ (0 : Int) ≤ 55 ∧ (55 : Int) ≤ 100 ∧
    cam_gain 0 10 55 = 5 ∧ gain_pct 0 10 (cam_gain 0 10 55) = 50 ∧
    gain_pct 0 10 (cam_gain 0 10 55) ≠ 55 := by
  decide

/-- C8, amended. For every gain range `minval < maxval` of `int`s with
`100 * (maxval - minval)` not overflowing and every percentage in 0..100, the
round trip `gain_pct (cam_gain pct)` never exceeds `pct`, and it gives back
`pct` exactly when `pct * (maxval - minval)` is a multiple of 100, that is when
the truncating division in `cam_gain` loses nothing. -/
theorem gain_pct_cam_gain (minval maxval pct : Int)
    (hlo : -2147483648 ≤ minval) (hhi : maxval ≤ 2147483647) (hlt : minval < maxval)
    (hov : 100 * (maxval - minval) ≤ 2147483647) (h0 : 0 ≤ pct) (h100 : pct ≤ 100) :
    gain_pct minval maxval (cam_gain minval maxval pct) ≤ pct ∧
    (gain_pct minval maxval (cam_gain minval maxval pct) = pct ↔
      100 ∣ pct * (maxval - minval)) := by
  have hd : 0 < maxval - minval := by omega
  have hp0 : 0 ≤ pct * (maxval - minval) := Int.mul_nonneg h0 (le_of_lt hd)
  have hp1 : pct * (maxval - minval) ≤ 100 * (maxval - minval) :=
    Int.mul_le_mul_of_nonneg_right h100 (le_of_lt hd)
  rw [cam_gain_eq minval maxval pct hlo hhi (le_of_lt hlt) hov h0 h100]
  generalize hq : pct * (maxval - minval) / 100 = q
  have hq0 : 0 ≤ q := by omega
  have hq1 : q * 100 ≤ pct * (maxval - minval) := by omega
  have e1 : isub (minval + q) minval = q := by
    unfold isub; rw [wrapInt_eq _ (by omega) (by omega)]; omega
  have e2 : imul q 100 = q * 100 := wrapInt_eq _ (by omega) (by omega)
  have e3 : isub maxval minval = maxval - minval := wrapInt_eq _ (by omega) (by omega)
  have e4 : Int.tdiv (q * 100) (maxval - minval) = q * 100 / (maxval - minval) :=
    Int.tdiv_eq_ediv (by omega) (le_of_lt hd)
  have hr0 : 0 ≤ q * 100 / (maxval - minval) := Int.ediv_nonneg (by omega) (le_of_lt hd)
  have hr1 : q * 100 / (maxval - minval) ≤ pct :=
    Int.ediv_le_of_le_mul hd hq1
  have e5 : idiv (q * 100) (maxval - minval) = q * 100 / (maxval - minval) := by
    unfold idiv; rw [e4]; exact wrapInt_eq _ (by omega) (by omega)
  unfold gain_pct
  rw [e1, e2, e3, e5]
  refine ⟨hr1, ?_, ?_⟩
  · intro h
    have hm : q * 100 / (maxval - minval) * (maxval - minval) ≤ q * 100 :=
      Int.ediv_mul_le _ (ne_of_gt hd)
    rw [h] at hm
    omega
  · intro h
    have hx : q * 100 = pct * (maxval - minval) := by omega
    rw [hx]
    exact Int.mul_ediv_cancel _ (ne_of_gt hd)

/-- C8 amended, on the gain range 0..300 at 37 percent: the round trip is exact. -/
theorem gain_pct_cam_gain_witness :
    gain_pct 0 300 (cam_gain 0 300 37) ≤ 37 ∧
    (gain_pct 0 300 (cam_gain 0 300 37) = 37 ↔ (100 : Int) ∣ 37 * (300 - 0)) :=
  gain_pct_cam_gain 0 300 37 (by decide) (by decide) (by decide) (by decide) (by decide)
    (by decide)

/-! ## Traces of the phases of `Capture` -/

theorem mem_applyExposureGain (cam : Camera) (duration : Int) (env : CaptureEnv) (e : Event)
    (h : e ∈ applyExposureGain cam duration env) :
    ∃ c v, e = Event.ASISetControlValue c v := by
  unfold applyExposureGain at h
  simp only [List.mem_append] at h
  rcases h with h | h
  · split at h
    · split at h
      · simp only [List.mem_singleton] at h; exact ⟨_, _, h⟩
      · simp at h
    · simp at h
  · split at h
    · split at h
      · simp only [List.mem_singleton] at h; exact ⟨_, _, h⟩
      · simp at h
    · simp at h

theorem mem_StopCapture (cam : Camera) (e : Event) (h : e ∈ cam.StopCapture.2) :
    e = Event.ASIStopVideoCapture := by
  unfold Camera.StopCapture at h
  split at h
  · simpa using h
  · simp at h

theorem StopCapture_capturing (cam : Camera) : cam.StopCapture.1.m_capturing = false := by
  unfold Camera.StopCapture
  split
  · rfl
  · simp_all

theorem mem_startIfNotCapturing (cam : Camera) (e : Event)
    (h : e ∈ cam.startIfNotCapturing.2) : e = Event.ASIStartVideoCapture := by
  unfold Camera.startIfNotCapturing at h
  split at h
  · simpa using h
  · simp at h

theorem startIfNotCapturing_capturing (cam : Camera) :
    cam.startIfNotCapturing.1.m_capturing = true := by
  unfold Camera.startIfNotCapturing
  split
  · rfl
  · simp_all

theorem mem_reconfigure (cam : Camera) (bc : Bool) (frame : wxRect) (e : Event)
    (h : e ∈ (reconfigure cam bc frame).2) :
    e = Event.ASIStopVideoCapture ∨
    e = Event.ASISetROIFormat frame.GetWidth frame.GetHeight cam.Binning ∨
    e = Event.ASISetStartPos frame.GetLeft frame.GetTop := by
  unfold reconfigure at h
  simp only [List.mem_append] at h
  rcases h with h | h
  · split at h
    · simp only [List.mem_append, List.mem_singleton] at h
      rcases h with h | h
      · exact Or.inl (mem_StopCapture _ _ h)
      · right; left; rw [h]; split <;> rfl
    · simp at h
  · split at h
    · right; right; simpa using h
    · simp at h

theorem mem_postProcess (cam : Camera) (options : CaptureOptions) (env : CaptureEnv)
    (img : usImage) (e : Event) (h : e ∈ (postProcess cam options env img).2) :
    e = Event.SubtractDark ∨ e = Event.QuickLRecon := by
  unfold postProcess at h
  by_cases hc : (cam.m_isColor = true ∧ cam.Binning = 1 ∧ options.reconstructColor = true)
  · rw [if_pos hc] at h
    simp only [List.mem_append, List.mem_singleton] at h
    rcases h with h | h
    · by_cases hd : options.subtractDark = true
      · rw [if_pos hd] at h; left; simpa using h
      · rw [if_neg hd] at h; simp at h
    · exact Or.inr h
  · rw [if_neg hc] at h
    by_cases hd : options.subtractDark = true
    · rw [if_pos hd] at h; left; simpa using h
    · rw [if_neg hd] at h; simp at h

/-! ## The acquisition loop -/

theorem acquire_skip (frameSize : Int) (buffer : Buffer) (pre rest : List Poll)
    (hpre : ∀ q ∈ pre, q.data = none ∧ q.interrupt = false ∧ q.expired = false) :
    acquire frameSize buffer (pre ++ rest) = acquire frameSize buffer rest := by
  induction pre with
  | nil => rfl
  | cons q qs ih =>
    have hq := hpre q (List.mem_cons_self _ _)
    have hqs : ∀ r ∈ qs, r.data = none ∧ r.interrupt = false ∧ r.expired = false :=
      fun r hr => hpre r (List.mem_cons_of_mem _ hr)
    simp only [List.cons_append, acquire, hq.1, hq.2.1, hq.2.2, Bool.false_eq_true, if_false]
    exact ih hqs

theorem acquire_timedOut (frameSize : Int) (buffer : Buffer) (polls : List Poll)
    (h : acquire frameSize buffer polls = Acquired.timedOut) :
    ∃ pre p post, polls = pre ++ p :: post ∧
      (∀ q ∈ pre, q.data = none ∧ q.interrupt = false ∧ q.expired = false) ∧
      p.data = none ∧ p.interrupt = false ∧ p.expired = true := by
  induction polls with
  | nil => simp [acquire] at h
  | cons q qs ih =>
    unfold acquire at h
    split at h
    · simp at h
    · rename_i hd
      by_cases hi : q.interrupt = true
      · simp [hi] at h
      · by_cases he : q.expired = true
        · exact ⟨[], q, qs, rfl, by simp, hd, by simpa using hi, he⟩
        · simp only [hi, he, if_false] at h
          obtain ⟨pre, p, post, e, hpre, hp⟩ := ih h
          refine ⟨q :: pre, p, post, by rw [e]; rfl, ?_, hp⟩
          intro r hr
          rcases List.mem_cons.mp hr with hr | hr
          · rw [hr]; exact ⟨hd, by simpa using hi, by simpa using he⟩
          · exact hpre r hr

/-! ## C3: terminal states of the acquisition loop -/

/-- C3. For every call of `Capture` that passes `img.Init` and every sequence
of polls: once the polls before it have all failed without interrupt and
without watchdog expiry, a successful poll makes `Capture` return `false` with
`m_capturing == true` and no alert; a failed poll with the interrupt flag set
makes it return `true` with `m_capturing == false` and no `DisconnectWithAlert`
at all, whatever the watchdog says; a failed poll without interrupt and with
the watchdog expired makes it return `true` with `m_capturing == false` and
`DisconnectWithAlert(CAPT_FAIL_TIMEOUT)` issued. Conversely, whenever
`DisconnectWithAlert(CAPT_FAIL_TIMEOUT)` is issued (with or without a passing
`img.Init`), the polls contain such a failed, uninterrupted, expired poll
after failed idle ones only. -/
theorem capture_terminal_states (cam : Camera) (duration : Int) (img : usImage)
    (options : CaptureOptions) (subframe : wxRect) (env : CaptureEnv) :
    (∀ (pre : List Poll) (p : Poll) (post : List Poll),
      env.allocFails = false →
      env.polls = pre ++ p :: post →
      (∀ q ∈ pre, q.data = none ∧ q.interrupt = false ∧ q.expired = false) →
      (p.data.isSome = true →
        (Capture cam duration img options subframe env).ret = some false ∧
        (Capture cam duration img options subframe env).cam.m_capturing = true ∧
        ∀ t, Event.DisconnectWithAlert t ∉
          (Capture cam duration img options subframe env).trace) ∧
      (p.data = none → p.interrupt = true →
        (Capture cam duration img options subframe env).ret = some true ∧
        (Capture cam duration img options subframe env).cam.m_capturing = false ∧
        ∀ t, Event.DisconnectWithAlert t ∉
          (Capture cam duration img options subframe env).trace) ∧
      (p.data = none → p.interrupt = false → p.expired = true →
        (Capture cam duration img options subframe env).ret = some true ∧
        (Capture cam duration img options subframe env).cam.m_capturing = false ∧
        Event.DisconnectWithAlert CaptureFailType.CAPT_FAIL_TIMEOUT ∈
          (Capture cam duration img options subframe env).trace)) ∧
    (Event.DisconnectWithAlert CaptureFailType.CAPT_FAIL_TIMEOUT ∈
        (Capture cam duration img options subframe env).trace →
      ∃ pre p post, env.polls = pre ++ p :: post ∧
        (∀ q ∈ pre, q.data = none ∧ q.interrupt = false ∧ q.expired = false) ∧
        p.data = none ∧ p.interrupt = false ∧ p.expired = true) := by
  constructor
  · intro pre p post hinit hpolls hpre
    have hskip := fun fs buf => acquire_skip fs buf pre (p :: post) hpre
    refine ⟨?_, ?_, ?_⟩
    · intro hd
      obtain ⟨d, hd⟩ := Option.isSome_iff_exists.mp hd
      simp only [Capture, usImage.Init, hinit, Bool.false_eq_true, if_false, hpolls, hskip,
        acquire, hd]
      refine ⟨trivial, startIfNotCapturing_capturing _, ?_⟩
      intro t ht
      simp only [List.mem_append] at ht
      rcases ht with ((ht | ht) | ht) | ht
      · obtain ⟨c, v, h⟩ := mem_applyExposureGain _ _ _ _ ht
        exact Event.noConfusion h
      · rcases mem_reconfigure _ _ _ _ ht with h | h | h <;> exact Event.noConfusion h
      · exact Event.noConfusion (mem_startIfNotCapturing _ _ ht)
      · rcases mem_postProcess _ _ _ _ _ ht with h | h <;> exact Event.noConfusion h
    · intro hd hi
      simp only [Capture, usImage.Init, hinit, Bool.false_eq_true, if_false, hpolls, hskip,
        acquire, hd, hi, if_true]
      refine ⟨trivial, StopCapture_capturing _, ?_⟩
      intro t ht
      simp only [List.mem_append] at ht
      rcases ht with ((ht | ht) | ht) | ht
      · obtain ⟨c, v, h⟩ := mem_applyExposureGain _ _ _ _ ht
        exact Event.noConfusion h
      · rcases mem_reconfigure _ _ _ _ ht with h | h | h <;> exact Event.noConfusion h
      · exact Event.noConfusion (mem_startIfNotCapturing _ _ ht)
      · exact Event.noConfusion (mem_StopCapture _ _ ht)
    · intro hd hi he
      simp only [Capture, usImage.Init, hinit, Bool.false_eq_true, if_false, hpolls, hskip,
        acquire, hd, hi, he, if_true]
      refine ⟨trivial, StopCapture_capturing _, ?_⟩
      simp
  · intro h
    unfold Capture at h
    by_cases hinit : env.allocFails = true
    · simp [usImage.Init, hinit] at h
    · have hinit2 : env.allocFails = false := by simpa using hinit
      simp only [usImage.Init, hinit2, Bool.false_eq_true, if_false] at h
      split at h
      · rename_i hacq
        simp only [List.mem_append] at h
        exfalso
        rcases h with (ht | ht) | ht
        · obtain ⟨c, v, h⟩ := mem_applyExposureGain _ _ _ _ ht
          exact Event.noConfusion h
        · rcases mem_reconfigure _ _ _ _ ht with h | h | h <;> exact Event.noConfusion h
        · exact Event.noConfusion (mem_startIfNotCapturing _ _ ht)
      · rename_i hacq
        simp only [List.mem_append] at h
        exfalso
        rcases h with ((ht | ht) | ht) | ht
        · obtain ⟨c, v, h⟩ := mem_applyExposureGain _ _ _ _ ht
          exact Event.noConfusion h
        · rcases mem_reconfigure _ _ _ _ ht with h | h | h <;> exact Event.noConfusion h
        · exact Event.noConfusion (mem_startIfNotCapturing _ _ ht)
        · exact Event.noConfusion (mem_StopCapture _ _ ht)
      · rename_i hacq
        exact acquire_timedOut _ _ _ hacq
      · rename_i buffer hacq
        simp only [List.mem_append] at h
        exfalso
        rcases h with ((ht | ht) | ht) | ht
        · obtain ⟨c, v, h⟩ := mem_applyExposureGain _ _ _ _ ht
          exact Event.noConfusion h
        · rcases mem_reconfigure _ _ _ _ ht with h | h | h <;> exact Event.noConfusion h
        · exact Event.noConfusion (mem_startIfNotCapturing _ _ ht)
        · rcases mem_postProcess _ _ _ _ _ ht with h | h <;> exact Event.noConfusion h

/-- C3 on concrete polls, each after one idle poll: an expired poll ends the
call with failure, streaming stopped and the timeout alert raised; a poll
with the interrupt flag set and the watchdog expired ends it with failure,
streaming stopped and no alert; a successful poll ends it with success and
streaming still on. -/
theorem capture_terminal_states_witness :
    ((Capture sampleCamera 50 sampleImage noOptions wxRect.empty
        (sampleEnv [idlePoll, expiredPoll])).ret = some true ∧
     (Capture sampleCamera 50 sampleImage noOptions wxRect.empty
        (sampleEnv [idlePoll, expiredPoll])).cam.m_capturing = false ∧
     Event.DisconnectWithAlert CaptureFailType.CAPT_FAIL_TIMEOUT ∈
      (Capture sampleCamera 50 sampleImage noOptions wxRect.empty
        (sampleEnv [idlePoll, expiredPoll])).trace) ∧
    ((Capture sampleCamera 50 sampleImage noOptions wxRect.empty
        (sampleEnv [idlePoll, interruptedPoll])).ret = some true ∧
     (Capture sampleCamera 50 sampleImage noOptions wxRect.empty
        (sampleEnv [idlePoll, interruptedPoll])).cam.m_capturing = false ∧
     ∀ t, Event.DisconnectWithAlert t ∉
      (Capture sampleCamera 50 sampleImage noOptions wxRect.empty
        (sampleEnv [idlePoll, interruptedPoll])).trace) ∧
    ((Capture sampleCamera 50 sampleImage noOptions wxRect.empty
        (sampleEnv [idlePoll, framePoll])).ret = some false ∧
     (Capture sampleCamera 50 sampleImage noOptions wxRect.empty
        (sampleEnv [idlePoll, framePoll])).cam.m_capturing = true ∧
     ∀ t, Event.DisconnectWithAlert t ∉
      (Capture sampleCamera 50 sampleImage noOptions wxRect.empty
        (sampleEnv [idlePoll, framePoll])).trace) ∧
    (Capture sampleCamera 50 sampleImage noOptions wxRect.empty
        (sampleEnv [idlePoll, expiredPoll])).trace =
      [Event.ASIStartVideoCapture, Event.ASIStopVideoCapture,
       Event.DisconnectWithAlert CaptureFailType.CAPT_FAIL_TIMEOUT] :=
  ⟨((capture_terminal_states sampleCamera 50 sampleImage noOptions wxRect.empty
      (sampleEnv [idlePoll, expiredPoll])).1 [idlePoll] expiredPoll [] rfl rfl
      (by intro q hq; rw [List.mem_singleton.mp hq]; exact ⟨rfl, rfl, rfl⟩)).2.2 rfl rfl rfl,
   ((capture_terminal_states sampleCamera 50 sampleImage noOptions wxRect.empty
      (sampleEnv [idlePoll, interruptedPoll])).1 [idlePoll] interruptedPoll [] rfl rfl
      (by intro q hq; rw [List.mem_singleton.mp hq]; exact ⟨rfl, rfl, rfl⟩)).2.1 rfl rfl,
   ((capture_terminal_states sampleCamera 50 sampleImage noOptions wxRect.empty
      (sampleEnv [idlePoll, framePoll])).1 [idlePoll] framePoll [] rfl rfl
      (by intro q hq; rw [List.mem_singleton.mp hq]; exact ⟨rfl, rfl, rfl⟩)).1 rfl,
   by decide⟩

/-! ## State left by the phases of `Capture` -/

theorem StopCapture_fst (cam : Camera) :
    cam.StopCapture.1 = { cam with m_capturing := false } := by
  unfold Camera.StopCapture
  split
  · rfl
  · rename_i h
    cases cam
    simp_all

theorem StopCapture_snd (cam : Camera) :
    cam.StopCapture.2 = if cam.m_capturing then [Event.ASIStopVideoCapture] else [] := by
  unfold Camera.StopCapture
  split <;> rfl

theorem startIfNotCapturing_fst (cam : Camera) :
    cam.startIfNotCapturing.1 = { cam with m_capturing := true } := by
  unfold Camera.startIfNotCapturing
  split
  · rfl
  · rename_i h
    cases cam
    simp_all

theorem startIfNotCapturing_snd (cam : Camera) :
    cam.startIfNotCapturing.2 =
      if cam.m_capturing then [] else [Event.ASIStartVideoCapture] := by
  unfold Camera.startIfNotCapturing
  cases cam.m_capturing <;> rfl

theorem rect_eq_of_no_change (f g : wxRect) (hs : sizeChange f g = false)
    (hp : posChange f g = false) : f = g := by
  unfold sizeChange wxRect.GetSize at hs
  unfold posChange wxRect.GetLeftTop at hp
  simp only [ne_eq, decide_not, Bool.not_eq_false', decide_eq_true_eq, wxSize.mk.injEq,
    wxPoint.mk.injEq] at hs hp
  cases f; cases g
  simp_all

theorem checkBinning_fst (cam : Camera) :
    cam.checkBinning.1 =
      { cam with
          FullSize := if cam.Binning ≠ cam.m_prevBinning then
              ⟨idiv cam.m_maxSize.x cam.Binning, idiv cam.m_maxSize.y cam.Binning⟩
            else cam.FullSize,
          m_prevBinning := cam.Binning } := by
  unfold Camera.checkBinning
  split
  · rename_i h; simp [h]
  · rename_i h
    have h2 : cam.Binning = cam.m_prevBinning := by simpa using h
    cases cam
    simp_all

theorem checkBinning_snd (cam : Camera) :
    cam.checkBinning.2 = decide (cam.Binning ≠ cam.m_prevBinning) := by
  unfold Camera.checkBinning
  split
  · rename_i h; simp [h]
  · rename_i h; simp [h]

theorem reconfigure_fst (cam : Camera) (bc : Bool) (frame : wxRect) :
    (reconfigure cam bc frame).1 =
      { cam with
          m_frame := frame,
          m_capturing := if (sizeChange frame cam.m_frame || bc) = true then false
                         else cam.m_capturing } := by
  unfold reconfigure
  by_cases hs : sizeChange frame cam.m_frame = true
  · simp [hs, StopCapture_fst]
  · have hs2 : sizeChange frame cam.m_frame = false := by simpa using hs
    by_cases hp : posChange frame cam.m_frame = true
    · cases bc <;> simp [hs2, hp, StopCapture_fst]
    · have hp2 : posChange frame cam.m_frame = false := by simpa using hp
      have e := rect_eq_of_no_change _ _ hs2 hp2
      simp only [hs2, hp2, Bool.or_self, Bool.false_eq_true, if_false, Bool.false_or,
        StopCapture_fst]
      cases bc
      · simp only [Bool.false_eq_true, if_false]
        rw [e]
      · simp only [if_true]
        rw [e]

theorem reconfigure_snd (cam : Camera) (bc : Bool) (frame : wxRect) :
    (reconfigure cam bc frame).2 =
      (if (sizeChange frame cam.m_frame || bc) = true then
         (if cam.m_capturing then [Event.ASIStopVideoCapture] else []) ++
           [Event.ASISetROIFormat frame.GetWidth frame.GetHeight cam.Binning]
       else []) ++
      (if posChange frame cam.m_frame = true then
         [Event.ASISetStartPos frame.GetLeft frame.GetTop] else []) := by
  unfold reconfigure
  by_cases hc : (sizeChange frame cam.m_frame || bc) = true
  · simp only [hc, if_true, StopCapture_snd]
    by_cases hq : (sizeChange frame cam.m_frame || posChange frame cam.m_frame) = true
    · simp [hq]
    · simp [hq]
  · simp only [hc, if_false, Bool.false_eq_true]

/-- The result of `Capture` after a passing `img.Init`, phase by phase: the
commands are those of the exposure and gain step, of the reconfiguration, of
the start step and of the way the acquisition loop ended; the camera differs
from the reconfigured one in `m_capturing` and `m_buffer` only. -/
theorem Capture_phases (cam : Camera) (duration : Int) (img : usImage)
    (options : CaptureOptions) (subframe : wxRect) (env : CaptureEnv)
    (hinit : env.allocFails = false) :
    ∃ capturing buffer tail,
      (Capture cam duration img options subframe env).cam =
        { (Capture.reconfigured cam subframe).1 with
            m_capturing := capturing, m_buffer := buffer } ∧
      (Capture cam duration img options subframe env).trace =
        applyExposureGain cam.checkBinning.1 duration env ++
        (Capture.reconfigured cam subframe).2 ++
        (Capture.reconfigured cam subframe).1.startIfNotCapturing.2 ++ tail ∧
      ∀ e ∈ tail, e = Event.ASIStopVideoCapture ∨
        e = Event.DisconnectWithAlert CaptureFailType.CAPT_FAIL_TIMEOUT ∨
        e = Event.SubtractDark ∨ e = Event.QuickLRecon := by
  unfold Capture
  simp only [usImage.Init, hinit, Bool.false_eq_true, if_false]
  split
  · refine ⟨true, (Capture.reconfigured cam subframe).1.m_buffer, [], ?_,
      (List.append_nil _).symm, by simp⟩
    rw [startIfNotCapturing_fst]; rfl
  · refine ⟨false, (Capture.reconfigured cam subframe).1.m_buffer, _, ?_, rfl, ?_⟩
    · rw [StopCapture_fst, startIfNotCapturing_fst]; rfl
    · intro e he; exact Or.inl (mem_StopCapture _ _ he)
  · refine ⟨false, (Capture.reconfigured cam subframe).1.m_buffer,
      _ ++ [Event.DisconnectWithAlert CaptureFailType.CAPT_FAIL_TIMEOUT], ?_,
      (List.append_assoc _ _ _), ?_⟩
    · rw [StopCapture_fst, startIfNotCapturing_fst]; rfl
    · intro e he
      rcases List.mem_append.mp he with h | h
      · exact Or.inl (mem_StopCapture _ _ h)
      · exact Or.inr (Or.inl (List.mem_singleton.mp h))
  · rename_i buffer hacq
    refine ⟨true, buffer, _, ?_, rfl, ?_⟩
    · rw [startIfNotCapturing_fst]; rfl
    · intro e he
      rcases mem_postProcess _ _ _ _ _ he with h | h
      · exact Or.inr (Or.inr (Or.inl h))
      · exact Or.inr (Or.inr (Or.inr h))

theorem applyExposureGain_checkBinning (cam : Camera) (duration : Int) (env : CaptureEnv) :
    applyExposureGain cam.checkBinning.1 duration env = applyExposureGain cam duration env := by
  rw [checkBinning_fst]; rfl

theorem reconfigured_fst (cam : Camera) (subframe : wxRect) :
    (Capture.reconfigured cam subframe).1 =
      { cam.checkBinning.1 with
          m_frame := (Capture.region cam subframe).frame,
          m_capturing :=
            if (sizeChange (Capture.region cam subframe).frame cam.m_frame ||
                decide (cam.Binning ≠ cam.m_prevBinning)) = true then false
            else cam.m_capturing } := by
  unfold Capture.reconfigured
  rw [reconfigure_fst, checkBinning_snd]
  rw [checkBinning_fst]

theorem reconfigured_snd (cam : Camera) (subframe : wxRect) :
    (Capture.reconfigured cam subframe).2 =
      (if (sizeChange (Capture.region cam subframe).frame cam.m_frame ||
            decide (cam.Binning ≠ cam.m_prevBinning)) = true then
         (if cam.m_capturing then [Event.ASIStopVideoCapture] else []) ++
           [Event.ASISetROIFormat (Capture.region cam subframe).frame.GetWidth
              (Capture.region cam subframe).frame.GetHeight cam.Binning]
       else []) ++
      (if posChange (Capture.region cam subframe).frame cam.m_frame = true then
         [Event.ASISetStartPos (Capture.region cam subframe).frame.GetLeft
            (Capture.region cam subframe).frame.GetTop] else []) := by
  unfold Capture.reconfigured
  rw [reconfigure_snd, checkBinning_snd]
  rw [checkBinning_fst]

/-! ## C4: a binning change forces a full reconfiguration -/

/-- C4. For every `Capture` call that passes `img.Init` and is entered with
`Binning != m_prevBinning`: the region is computed from
`FullSize = m_maxSize / Binning`; the reconfiguration leaves `m_capturing`
false; and the commands issued are, in this order, the exposure and gain
updates, `ASIStopVideoCapture` when streaming was active, `ASISetROIFormat`
with the new frame width, height and `Binning`, `ASISetStartPos` when the origin
moved, and `ASIStartVideoCapture`, followed only by what ends the acquisition.
No assumption is made on the frame size, so this holds when it equals the
size of `m_frame`. -/
theorem binning_change_forces_reconfiguration (cam : Camera) (duration : Int)
    (img : usImage) (options : CaptureOptions) (subframe : wxRect) (env : CaptureEnv)
    (hbin : cam.Binning ≠ cam.m_prevBinning) (hinit : env.allocFails = false) :
    cam.checkBinning.1.FullSize =
      ⟨idiv cam.m_maxSize.x cam.Binning, idiv cam.m_maxSize.y cam.Binning⟩ ∧
    Capture.region cam subframe =
      captureRegion cam.UseSubframes
        ⟨idiv cam.m_maxSize.x cam.Binning, idiv cam.m_maxSize.y cam.Binning⟩ subframe ∧
    (Capture.reconfigured cam subframe).1.m_capturing = false ∧
    ∃ tail,
      (Capture cam duration img options subframe env).trace =
        applyExposureGain cam duration env ++
        ((if cam.m_capturing then [Event.ASIStopVideoCapture] else []) ++
          [Event.ASISetROIFormat (Capture.region cam subframe).frame.GetWidth
             (Capture.region cam subframe).frame.GetHeight cam.Binning] ++
          (if posChange (Capture.region cam subframe).frame cam.m_frame = true then
             [Event.ASISetStartPos (Capture.region cam subframe).frame.GetLeft
                (Capture.region cam subframe).frame.GetTop] else [])) ++
        [Event.ASIStartVideoCapture] ++ tail ∧
      ∀ e ∈ tail, e = Event.ASIStopVideoCapture ∨
        e = Event.DisconnectWithAlert CaptureFailType.CAPT_FAIL_TIMEOUT ∨
        e = Event.SubtractDark ∨ e = Event.QuickLRecon := by
  have hfull : cam.checkBinning.1.FullSize =
      ⟨idiv cam.m_maxSize.x cam.Binning, idiv cam.m_maxSize.y cam.Binning⟩ := by
    rw [checkBinning_fst]; simp [hbin]
  have huse : cam.checkBinning.1.UseSubframes = cam.UseSubframes := by
    rw [checkBinning_fst]
  have hcap : (Capture.reconfigured cam subframe).1.m_capturing = false := by
    rw [reconfigured_fst]; simp [hbin]
  refine ⟨hfull, ?_, hcap, ?_⟩
  · unfold Capture.region; rw [hfull, huse]
  · obtain ⟨capturing, buffer, tail, _, htrace, htail⟩ :=
      Capture_phases cam duration img options subframe env hinit
    refine ⟨tail, ?_, htail⟩
    rw [htrace, startIfNotCapturing_snd, hcap, reconfigured_snd,
      applyExposureGain_checkBinning]
    simp [hbin]

/-- C4 on the sample camera after the user switched to binning 2 while the
device was streaming: stop, new format 640 by 480 at binning 2, restart. -/
theorem binning_change_forces_reconfiguration_witness :
    ({ sampleCamera with Binning := 2, m_capturing := true }).checkBinning.1.FullSize =
      ⟨640, 480⟩ ∧
    (Capture { sampleCamera with Binning := 2, m_capturing := true } 50 sampleImage noOptions
        wxRect.empty (sampleEnv [framePoll])).trace =
      [Event.ASIStopVideoCapture, Event.ASISetROIFormat 640 480 2,
       Event.ASIStartVideoCapture] ∧
    (Capture.reconfigured { sampleCamera with Binning := 2, m_capturing := true }
        wxRect.empty).1.m_capturing = false :=
  ⟨by decide, by decide,
   (binning_change_forces_reconfiguration
      { sampleCamera with Binning := 2, m_capturing := true } 50 sampleImage noOptions
      wxRect.empty (sampleEnv [framePoll]) (by decide) rfl).2.2.1⟩

/-! ## C6: a position-only change -/

/-- C6. For every `Capture` call (passing `img.Init`) in which
`Binning == m_prevBinning` and the computed frame has the size of `m_frame` but
another origin: the reconfiguration issues exactly `ASISetStartPos` with the new
left and top, so neither `ASISetROIFormat` nor `ASIStopVideoCapture`, and
`m_capturing` keeps its value up to the start step; `m_frame` becomes the new
frame; no `ASISetROIFormat` occurs anywhere in the call. -/
theorem position_only_change (cam : Camera) (duration : Int) (img : usImage)
    (options : CaptureOptions) (subframe : wxRect) (env : CaptureEnv)
    (hbin : cam.Binning = cam.m_prevBinning) (hinit : env.allocFails = false)
    (hsize : (Capture.region cam subframe).frame.GetSize = cam.m_frame.GetSize)
    (hpos : (Capture.region cam subframe).frame.GetLeftTop ≠ cam.m_frame.GetLeftTop) :
    (Capture.reconfigured cam subframe).2 =
      [Event.ASISetStartPos (Capture.region cam subframe).frame.GetLeft
         (Capture.region cam subframe).frame.GetTop] ∧
    (Capture.reconfigured cam subframe).1.m_capturing = cam.m_capturing ∧
    (Capture.reconfigured cam subframe).1.m_frame = (Capture.region cam subframe).frame ∧
    (Capture cam duration img options subframe env).cam.m_frame =
      (Capture.region cam subframe).frame ∧
    (∀ w h b, Event.ASISetROIFormat w h b ∉
      (Capture cam duration img options subframe env).trace) ∧
    ∃ tail,
      (Capture cam duration img options subframe env).trace =
        applyExposureGain cam duration env ++
        [Event.ASISetStartPos (Capture.region cam subframe).frame.GetLeft
           (Capture.region cam subframe).frame.GetTop] ++
        (if cam.m_capturing then [] else [Event.ASIStartVideoCapture]) ++ tail ∧
      ∀ e ∈ tail, e = Event.ASIStopVideoCapture ∨
        e = Event.DisconnectWithAlert CaptureFailType.CAPT_FAIL_TIMEOUT ∨
        e = Event.SubtractDark ∨ e = Event.QuickLRecon := by
  have hs : sizeChange (Capture.region cam subframe).frame cam.m_frame = false := by
    unfold sizeChange; simp [hsize]
  have hp : posChange (Capture.region cam subframe).frame cam.m_frame = true := by
    unfold posChange; simp [hpos]
  have hev : (Capture.reconfigured cam subframe).2 =
      [Event.ASISetStartPos (Capture.region cam subframe).frame.GetLeft
         (Capture.region cam subframe).frame.GetTop] := by
    rw [reconfigured_snd]; simp [hs, hp, hbin]
  have hcap : (Capture.reconfigured cam subframe).1.m_capturing = cam.m_capturing := by
    rw [reconfigured_fst]; simp [hs, hbin]
  have hfr : (Capture.reconfigured cam subframe).1.m_frame =
      (Capture.region cam subframe).frame := by
    rw [reconfigured_fst]
  obtain ⟨capturing, buffer, tail, hcam, htrace, htail⟩ :=
    Capture_phases cam duration img options subframe env hinit
  have htrace2 : (Capture cam duration img options subframe env).trace =
      applyExposureGain cam duration env ++
      [Event.ASISetStartPos (Capture.region cam subframe).frame.GetLeft
         (Capture.region cam subframe).frame.GetTop] ++
      (if cam.m_capturing then [] else [Event.ASIStartVideoCapture]) ++ tail := by
    rw [htrace, startIfNotCapturing_snd, hcap, hev, applyExposureGain_checkBinning]
  refine ⟨hev, hcap, hfr, ?_, ?_, tail, htrace2, htail⟩
  · rw [hcam]; exact hfr
  · intro w h b hmem
    rw [htrace2] at hmem
    simp only [List.mem_append, List.mem_singleton] at hmem
    rcases hmem with ((hm | hm) | hm) | hm
    · obtain ⟨c, v, h⟩ := mem_applyExposureGain _ _ _ _ hm
      exact Event.noConfusion h
    · exact Event.noConfusion hm
    · split at hm
      · simp at hm
      · simp at hm
    · rcases htail _ hm with h | h | h | h <;> exact Event.noConfusion h

/-- C6 on the sample camera streaming the region (32, 32) of 128 by 96, when
the requested sub-frame moves so that the region becomes (64, 32) of 128 by 96. -/
theorem position_only_change_witness :
    (Capture.reconfigured { sampleCamera with m_frame := ⟨32, 32, 128, 96⟩, m_capturing := true }
        ⟨70, 50, 100, 60⟩).2 = [Event.ASISetStartPos 64 32] ∧
    (Capture { sampleCamera with m_frame := ⟨32, 32, 128, 96⟩, m_capturing := true } 50
        sampleImage noOptions ⟨70, 50, 100, 60⟩ (sampleEnv [framePoll])).trace =
      [Event.ASISetStartPos 64 32] ∧
    (Capture { sampleCamera with m_frame := ⟨32, 32, 128, 96⟩, m_capturing := true } 50
        sampleImage noOptions ⟨70, 50, 100, 60⟩ (sampleEnv [framePoll])).cam.m_frame =
      ⟨64, 32, 128, 96⟩ :=
  ⟨by decide, by decide,
   ((position_only_change
      { sampleCamera with m_frame := ⟨32, 32, 128, 96⟩, m_capturing := true } 50
      sampleImage noOptions ⟨70, 50, 100, 60⟩ (sampleEnv [framePoll]) rfl rfl
      (by decide) (by decide)).2.2.2.1).trans (by decide)⟩

/-! ## C5: the second of two identical calls reconfigures nothing -/

/-- The configuration a `Capture` call that passed `img.Init` leaves behind. -/
theorem Capture_leaves (cam : Camera) (duration : Int) (img : usImage)
    (options : CaptureOptions) (subframe : wxRect) (env : CaptureEnv)
    (hinit : env.allocFails = false) :
    (Capture cam duration img options subframe env).cam.Binning = cam.Binning ∧
    (Capture cam duration img options subframe env).cam.m_prevBinning = cam.Binning ∧
    (Capture cam duration img options subframe env).cam.UseSubframes = cam.UseSubframes ∧
    (Capture cam duration img options subframe env).cam.FullSize =
      cam.checkBinning.1.FullSize ∧
    (Capture cam duration img options subframe env).cam.m_maxSize = cam.m_maxSize ∧
    (Capture cam duration img options subframe env).cam.m_frame =
      (Capture.region cam subframe).frame := by
  obtain ⟨capturing, buffer, tail, hcam, _, _⟩ :=
    Capture_phases cam duration img options subframe env hinit
  rw [hcam, reconfigured_fst]
  refine ⟨?_, ?_, ?_, ?_, ?_, ?_⟩ <;> first | rfl | (rw [checkBinning_fst])

/-- C5. If `Capture` is called and passes `img.Init`, and is called again on
the state it left with the same duration, options and sub-frame (`Binning`
and `UseSubframes` untouched in between), then in the second call
`binning_change`, `size_change` and `pos_change` are all false, the
reconfiguration issues no command at all (no `ASIStopVideoCapture`, no
`ASISetROIFormat`, no `ASISetStartPos`), no `ASISetROIFormat` and no
`ASISetStartPos` occur anywhere in the second call, and `m_frame` and
`m_prevBinning` are left unchanged. -/
theorem second_capture_no_reconfiguration (cam : Camera) (duration : Int)
    (img img2 : usImage) (options : CaptureOptions) (subframe : wxRect)
    (env env2 : CaptureEnv) (hinit : env.allocFails = false) :
    (Capture cam duration img options subframe env).cam.checkBinning.2 = false ∧
    sizeChange
      (Capture.region (Capture cam duration img options subframe env).cam subframe).frame
      (Capture cam duration img options subframe env).cam.m_frame = false ∧
    posChange
      (Capture.region (Capture cam duration img options subframe env).cam subframe).frame
      (Capture cam duration img options subframe env).cam.m_frame = false ∧
    (Capture.reconfigured (Capture cam duration img options subframe env).cam subframe).2
      = [] ∧
    (∀ w h b, Event.ASISetROIFormat w h b ∉
      (Capture (Capture cam duration img options subframe env).cam duration img2 options
        subframe env2).trace) ∧
    (∀ x y, Event.ASISetStartPos x y ∉
      (Capture (Capture cam duration img options subframe env).cam duration img2 options
        subframe env2).trace) ∧
    (Capture (Capture cam duration img options subframe env).cam duration img2 options
        subframe env2).cam.m_frame =
      (Capture cam duration img options subframe env).cam.m_frame ∧
    (Capture (Capture cam duration img options subframe env).cam duration img2 options
        subframe env2).cam.m_prevBinning =
      (Capture cam duration img options subframe env).cam.m_prevBinning := by
  obtain ⟨hB, hP, hU, hF, _, hM⟩ :=
    Capture_leaves cam duration img options subframe env hinit
  generalize Capture cam duration img options subframe env = r1 at *
  have hbin : r1.cam.Binning = r1.cam.m_prevBinning := by rw [hB, hP]
  have hcb : r1.cam.checkBinning = (r1.cam, false) := by
    unfold Camera.checkBinning; simp [hbin]
  have hreg : Capture.region r1.cam subframe = Capture.region cam subframe := by
    have huse : cam.checkBinning.1.UseSubframes = cam.UseSubframes := by
      rw [checkBinning_fst]
    unfold Capture.region; rw [hcb]; simp only; rw [hU, hF, huse]
  have hs : sizeChange (Capture.region r1.cam subframe).frame r1.cam.m_frame = false := by
    rw [hreg, hM]; simp [sizeChange]
  have hp : posChange (Capture.region r1.cam subframe).frame r1.cam.m_frame = false := by
    rw [hreg, hM]; simp [posChange]
  have hev : (Capture.reconfigured r1.cam subframe).2 = [] := by
    rw [reconfigured_snd]; simp [hs, hp, hbin]
  have hfr : (Capture.reconfigured r1.cam subframe).1.m_frame = r1.cam.m_frame := by
    rw [reconfigured_fst, hreg, hM]
  have hpb : (Capture.reconfigured r1.cam subframe).1.m_prevBinning = r1.cam.m_prevBinning := by
    rw [reconfigured_fst, hcb]
  refine ⟨by rw [hcb], hs, hp, hev, ?_⟩
  by_cases hinit2 : env2.allocFails = true
  · have hr2 : Capture r1.cam duration img2 options subframe env2 =
        ⟨some true, r1.cam, img2,
          [Event.DisconnectWithAlert CaptureFailType.CAPT_FAIL_MEMORY]⟩ := by
      unfold Capture; rw [hcb]; simp [usImage.Init, hinit2]
    rw [hr2]
    simp
  · have hinit2f : env2.allocFails = false := by simpa using hinit2
    obtain ⟨capturing, buffer, tail, hcam, htrace, htail⟩ :=
      Capture_phases r1.cam duration img2 options subframe env2 hinit2f
    have hno : ∀ e ∈ (Capture r1.cam duration img2 options subframe env2).trace,
        (∃ c v, e = Event.ASISetControlValue c v) ∨ e = Event.ASIStartVideoCapture ∨
        e = Event.ASIStopVideoCapture ∨
        e = Event.DisconnectWithAlert CaptureFailType.CAPT_FAIL_TIMEOUT ∨
        e = Event.SubtractDark ∨ e = Event.QuickLRecon := by
      intro e he
      rw [htrace, hev] at he
      simp only [List.append_nil, List.mem_append] at he
      rcases he with (he | he) | he
      · exact Or.inl (mem_applyExposureGain _ _ _ _ he)
      · exact Or.inr (Or.inl (mem_startIfNotCapturing _ _ he))
      · exact Or.inr (Or.inr (htail e he))
    refine ⟨?_, ?_, ?_, ?_⟩
    · intro w h b hmem
      rcases hno _ hmem with ⟨c, v, h⟩ | h | h | h | h | h <;> exact Event.noConfusion h
    · intro x y hmem
      rcases hno _ hmem with ⟨c, v, h⟩ | h | h | h | h | h <;> exact Event.noConfusion h
    · rw [hcam]; exact hfr
    · rw [hcam]; exact hpb

/-- C5 on the sample camera: the first call with the sub-frame (37, 50) of
100 by 60 sets the format and the start position and starts streaming; the
second identical call issues no command at all. -/
theorem second_capture_no_reconfiguration_witness :
    (Capture sampleCamera 50 sampleImage noOptions ⟨37, 50, 100, 60⟩
        (sampleEnv [framePoll])).trace =
      [Event.ASISetROIFormat 128 96 1, Event.ASISetStartPos 32 32,
       Event.ASIStartVideoCapture] ∧
    (Capture (Capture sampleCamera 50 sampleImage noOptions ⟨37, 50, 100, 60⟩
        (sampleEnv [framePoll])).cam 50 sampleImage noOptions ⟨37, 50, 100, 60⟩
        (sampleEnv [framePoll])).trace = [] ∧
    (Capture.reconfigured (Capture sampleCamera 50 sampleImage noOptions ⟨37, 50, 100, 60⟩
        (sampleEnv [framePoll])).cam ⟨37, 50, 100, 60⟩).2 = [] :=
  ⟨by decide, by decide,
   (second_capture_no_reconfiguration sampleCamera 50 sampleImage sampleImage noOptions
      ⟨37, 50, 100, 60⟩ (sampleEnv [framePoll]) (sampleEnv [framePoll]) rfl).2.2.2.1⟩

/-! ## C7: the full-frame fall-back -/

theorem linearCopy_apply (buffer : Buffer) (n : Nat) (dst : Samples) (i j : Int) :
    linearCopy buffer dst i n j =
      if i ≤ j ∧ j < i + n then widen (buffer j) else dst j := by
  induction n generalizing dst i with
  | zero =>
    have h : ¬ (i ≤ j ∧ j < i + ((0 : Nat) : Int)) := by omega
    rw [if_neg h]; rfl
  | succ n ih =>
    unfold linearCopy
    rw [ih]
    by_cases h1 : i + 1 ≤ j ∧ j < i + 1 + (n : Int)
    · have h2 : i ≤ j ∧ j < i + ((n + 1 : Nat) : Int) := by push_cast; omega
      rw [if_pos h1, if_pos h2]
    · rw [if_neg h1]
      unfold writeAt
      by_cases h3 : j = i
      · have h2 : i ≤ j ∧ j < i + ((n + 1 : Nat) : Int) := by push_cast; omega
        rw [if_pos h3, if_pos h2, h3]
      · have h2 : ¬ (i ≤ j ∧ j < i + ((n + 1 : Nat) : Int)) := by push_cast; omega
        rw [if_neg h3, if_neg h2]

/-- C7. For every requested sub-frame with `width <= 0` or `height <= 0`,
whatever `UseSubframes` is: the capture region has `useSubframe` false, origin
(0, 0) and the size `FullSize` left by the binning check, which is
`m_maxSize / Binning` whenever the call is entered with a binning change or
with `FullSize == m_maxSize / m_prevBinning` (as `Connect` and every earlier
`Capture` leave it); and the compositor takes the linear copy: every sample
`i` of the image is the widened byte `i` of the transfer buffer and `Subframe`
is not touched. -/
theorem full_frame_fallback (cam : Camera) (subframe : wxRect)
    (hsub : subframe.width ≤ 0 ∨ subframe.height ≤ 0) :
    Capture.region cam subframe =
      ⟨false, ⟨0, 0, cam.checkBinning.1.FullSize.x, cam.checkBinning.1.FullSize.y⟩, ⟨0, 0⟩⟩ ∧
    (Capture.region cam subframe).frame = wxRect.ofSize cam.checkBinning.1.FullSize ∧
    (cam.Binning ≠ cam.m_prevBinning ∨
      cam.FullSize =
        ⟨idiv cam.m_maxSize.x cam.m_prevBinning, idiv cam.m_maxSize.y cam.m_prevBinning⟩ →
      cam.checkBinning.1.FullSize =
        ⟨idiv cam.m_maxSize.x cam.Binning, idiv cam.m_maxSize.y cam.Binning⟩ ∧
      Capture.region cam subframe =
        ⟨false, ⟨0, 0, idiv cam.m_maxSize.x cam.Binning, idiv cam.m_maxSize.y cam.Binning⟩,
          ⟨0, 0⟩⟩) ∧
    ∀ (buffer : Buffer) (img : usImage) (env : CaptureEnv),
      Capture.composed cam img subframe env buffer =
        { Capture.flushed cam img env with
            ImageData := linearCopy buffer (Capture.flushed cam img env).ImageData 0
              (Capture.flushed cam img env).NPixels.toNat } ∧
      (Capture.composed cam img subframe env buffer).Subframe =
        (Capture.flushed cam img env).Subframe ∧
      ∀ i : Int, 0 ≤ i → i < (Capture.flushed cam img env).NPixels →
        (Capture.composed cam img subframe env buffer).ImageData i = widen (buffer i) := by
  have hreg : Capture.region cam subframe =
      ⟨false, ⟨0, 0, cam.checkBinning.1.FullSize.x, cam.checkBinning.1.FullSize.y⟩,
        ⟨0, 0⟩⟩ := by
    unfold Capture.region
    simp [captureRegion, hsub, wxRect.ofSize]
  refine ⟨hreg, ?_, ?_, ?_⟩
  · rw [hreg]; rfl
  · intro h
    have hfull : cam.checkBinning.1.FullSize =
        ⟨idiv cam.m_maxSize.x cam.Binning, idiv cam.m_maxSize.y cam.Binning⟩ := by
      rw [checkBinning_fst]
      by_cases hb : cam.Binning = cam.m_prevBinning
      · rcases h with h | h
        · exact absurd hb h
        · simp [hb, h]
      · simp [hb]
    refine ⟨hfull, ?_⟩
    rw [hreg, hfull]
  · intro buffer img env
    have hc : Capture.composed cam img subframe env buffer =
        { Capture.flushed cam img env with
            ImageData := linearCopy buffer (Capture.flushed cam img env).ImageData 0
              (Capture.flushed cam img env).NPixels.toNat } := by
      unfold Capture.composed
      rw [hreg]; simp [composite]
    refine ⟨hc, by rw [hc], ?_⟩
    intro i h0 h1
    rw [hc]
    simp only
    rw [linearCopy_apply]
    have : 0 ≤ i ∧ i < 0 + (((Capture.flushed cam img env).NPixels.toNat : Nat) : Int) := by
      rw [Int.toNat_of_nonneg (by omega)]; omega
    rw [if_pos this]

/-- C7 on the sample camera with sub-frames enabled and the empty request:
the region is the full 1280 by 960 frame; on an 8 by 4 sensor a successful
call copies byte 13 of the frame to sample 13 of the image. -/
theorem full_frame_fallback_witness :
    Capture.region sampleCamera wxRect.empty = ⟨false, ⟨0, 0, 1280, 960⟩, ⟨0, 0⟩⟩ ∧
    sampleCamera.UseSubframes = true ∧
    (Capture { sampleCamera with m_maxSize := ⟨8, 4⟩, FullSize := ⟨8, 4⟩ } 50 sampleImage
      noOptions wxRect.empty (sampleEnv [framePoll])).img.ImageData 13 = 13 :=
  ⟨(full_frame_fallback sampleCamera wxRect.empty (Or.inl (by decide))).1.trans (by decide),
   rfl, by decide⟩

/-! ## C2: sub-frame compositing -/

/-- A `Capture` call that returns success hands back the composed image after
the optional post-processing. -/
theorem Capture_success_img (cam : Camera) (duration : Int) (img : usImage)
    (options : CaptureOptions) (subframe : wxRect) (env : CaptureEnv)
    (hret : (Capture cam duration img options subframe env).ret = some false) :
    (Capture cam duration img options subframe env).img =
      (postProcess (Capture cam duration img options subframe env).cam options env
        (Capture.composed cam img subframe env
          (Capture cam duration img options subframe env).cam.m_buffer)).1 := by
  unfold Capture at hret ⊢
  by_cases hinit : env.allocFails = true
  · simp [usImage.Init, hinit] at hret
  · have hinit2 : env.allocFails = false := by simpa using hinit
    simp only [usImage.Init, hinit2, Bool.false_eq_true, if_false] at hret ⊢
    split
    · rename_i hacq; rw [hacq] at hret; simp at hret
    · rename_i hacq; rw [hacq] at hret; simp at hret
    · rename_i hacq; rw [hacq] at hret; simp at hret
    · have hF : ∀ (c : Camera) (bc : Bool) (f : wxRect),
          (reconfigure c bc f).1.startIfNotCapturing.1.FullSize = c.FullSize := by
        intro c bc f
        rw [startIfNotCapturing_fst, reconfigure_fst]
      simp only [Capture.composed, Capture.flushed, Capture.region, usImage.Init, hinit2,
        Bool.false_eq_true, if_false, hF]

theorem flush_NPixels (n : Nat) (stale : List (Option Samples)) (img : usImage) :
    (flush_buffered_image img n stale).NPixels = img.NPixels := by
  induction n generalizing img stale with
  | zero => rfl
  | succ n ih =>
    cases stale with
    | nil => rfl
    | cons a rest =>
      cases a with
      | none => rfl
      | some f =>
        unfold flush_buffered_image
        rw [ih]

theorem flushed_NPixels (cam : Camera) (img : usImage) (env : CaptureEnv)
    (hinit : env.allocFails = false) :
    (Capture.flushed cam img env).NPixels =
      cam.checkBinning.1.FullSize.x * cam.checkBinning.1.FullSize.y := by
  unfold Capture.flushed
  rw [flush_NPixels]
  simp [usImage.Init, hinit, wxSize.GetWidth, wxSize.GetHeight]

theorem copyRow_apply (buffer : Buffer) (n : Nat) (dst : Samples) (s d j : Int) :
    copyRow buffer dst s d n j =
      if d ≤ j ∧ j < d + n then widen (buffer (s + (j - d))) else dst j := by
  induction n generalizing dst s d with
  | zero =>
    have h : ¬ (d ≤ j ∧ j < d + ((0 : Nat) : Int)) := by omega
    rw [if_neg h]; rfl
  | succ n ih =>
    unfold copyRow
    rw [ih]
    by_cases h1 : d + 1 ≤ j ∧ j < d + 1 + (n : Int)
    · have h2 : d ≤ j ∧ j < d + ((n + 1 : Nat) : Int) := by push_cast; omega
      have e : s + 1 + (j - (d + 1)) = s + (j - d) := by omega
      rw [if_pos h1, if_pos h2, e]
    · rw [if_neg h1]
      unfold writeAt
      by_cases h3 : j = d
      · have h2 : d ≤ j ∧ j < d + ((n + 1 : Nat) : Int) := by push_cast; omega
        have e : s + (j - d) = s := by omega
        rw [if_pos h3, if_pos h2, e]
      · have h2 : ¬ (d ≤ j ∧ j < d + ((n + 1 : Nat) : Int)) := by push_cast; omega
        rw [if_neg h3, if_neg h2]

theorem copyRows_outside (buffer : Buffer) (fw FW : Int) (sub : wxRect) (pos : wxPoint)
    (j : Int) (n : Nat) (dst : Samples) (y : Int)
    (hout : ∀ r : Int, y ≤ r → r < y + n →
      ¬ ((r + sub.y) * FW + sub.x ≤ j ∧ j < (r + sub.y) * FW + sub.x + sub.width.toNat)) :
    copyRows buffer fw FW sub pos dst y n j = dst j := by
  induction n generalizing dst y with
  | zero => rfl
  | succ n ih =>
    unfold copyRows
    rw [ih]
    · rw [copyRow_apply, if_neg (hout y (le_refl _) (by push_cast; omega))]
    · intro r h1 h2
      exact hout r (by omega) (by push_cast; omega)

theorem row_offset_step (a b FW : Int) (hFW : 0 ≤ FW) (hab : a < b) :
    a * FW + FW ≤ b * FW := by
  have h : (a + 1) * FW ≤ b * FW := Int.mul_le_mul_of_nonneg_right (by omega) hFW
  have e : (a + 1) * FW = a * FW + FW := by ring
  omega

theorem copyRows_inside (buffer : Buffer) (fw FW : Int) (sub : wxRect) (pos : wxPoint)
    (hw : 0 ≤ sub.width) (hx0 : 0 ≤ sub.x) (hxw : sub.x + sub.width ≤ FW)
    (n : Nat) (dst : Samples) (y r x : Int)
    (hr1 : y ≤ r) (hr2 : r < y + n) (hx1 : 0 ≤ x) (hx2 : x < sub.width) :
    copyRows buffer fw FW sub pos dst y n ((r + sub.y) * FW + sub.x + x) =
      widen (buffer ((r + pos.y) * fw + pos.x + x)) := by
  have hwn : ((sub.width.toNat : Nat) : Int) = sub.width := Int.toNat_of_nonneg hw
  have hFW : 0 ≤ FW := by omega
  induction n generalizing dst y with
  | zero => exfalso; simp at hr2; omega
  | succ n ih =>
    unfold copyRows
    by_cases hry : r = y
    · subst hry
      rw [copyRows_outside]
      · rw [copyRow_apply, if_pos (by rw [hwn]; omega)]
        congr 2; omega
      · intro r2 h1 h2
        have hstep := row_offset_step (r + sub.y) (r2 + sub.y) FW hFW (by omega)
        omega
    · exact ih _ _ (by omega) (by push_cast at hr2; omega)

theorem composed_subframe (cam : Camera) (img : usImage) (subframe : wxRect)
    (env : CaptureEnv) (buffer : Buffer)
    (huse : (Capture.region cam subframe).useSubframe = true)
    (hinit : env.allocFails = false) :
    (Capture.composed cam img subframe env buffer).ImageData =
      copyRows buffer (Capture.region cam subframe).frame.width
        cam.checkBinning.1.FullSize.x subframe (Capture.region cam subframe).subframePos
        (fun i => if 0 ≤ i ∧ i < cam.checkBinning.1.FullSize.x * cam.checkBinning.1.FullSize.y
          then 0 else (Capture.flushed cam img env).ImageData i)
        0 subframe.height.toNat ∧
    (Capture.composed cam img subframe env buffer).NPixels =
      cam.checkBinning.1.FullSize.x * cam.checkBinning.1.FullSize.y ∧
    (Capture.composed cam img subframe env buffer).Subframe = subframe := by
  have hn := flushed_NPixels cam img env hinit
  unfold Capture.composed composite
  rw [if_pos huse]
  simp only [usImage.Clear, hn, wxSize.GetWidth]
  exact ⟨trivial, trivial, trivial⟩

theorem region_useSubframe (cam : Camera) (subframe : wxRect)
    (huse : cam.UseSubframes = true) (hw : 0 < subframe.width) (hh : 0 < subframe.height) :
    (Capture.region cam subframe).useSubframe = true := by
  have huse2 : cam.checkBinning.1.UseSubframes = true := by
    rw [checkBinning_fst]; exact huse
  have c : ¬ (subframe.width ≤ 0 ∨ subframe.height ≤ 0) := by omega
  unfold Capture.region captureRegion
  simp [huse2, c]

/-- C2. For every `Capture` call with sub-frames enabled that passes `img.Init`,
with a requested sub-frame of positive width and height lying inside the full
frame, and for every content `buffer` of the transfer buffer: in the image as
it stands after the compositing step, the pixel at `(sub.x + x, sub.y + y)` for
`0 <= x < sub.width`, `0 <= y < sub.height` is the widened byte at index
`(y + subframePos.y) * frame.width + (x + subframePos.x)`; the written index is
below `FullSize.x * FullSize.y`, and the read index is below
`frame.width * frame.height` (the rounding of the far edges not overflowing
`int`); every other pixel of the full-resolution image is 0; the image has
`FullSize.x * FullSize.y` samples and records the requested sub-frame. A
successful `Capture` returns this image, built from `m_buffer`, after the
optional post-processing. -/
theorem subframe_composite_roundtrip (cam : Camera) (img : usImage) (subframe : wxRect)
    (env : CaptureEnv) (buffer : Buffer)
    (huse : cam.UseSubframes = true)
    (hw : 0 < subframe.width) (hh : 0 < subframe.height)
    (hx : 0 ≤ subframe.x) (hy : 0 ≤ subframe.y)
    (hxw : subframe.x + subframe.width ≤ cam.checkBinning.1.FullSize.x)
    (hyh : subframe.y + subframe.height ≤ cam.checkBinning.1.FullSize.y)
    (hinit : env.allocFails = false) :
    (∀ x y : Int, 0 ≤ x → x < subframe.width → 0 ≤ y → y < subframe.height →
      (Capture.composed cam img subframe env buffer).ImageData
          ((subframe.y + y) * cam.checkBinning.1.FullSize.x + (subframe.x + x)) =
        widen (buffer
          ((y + (Capture.region cam subframe).subframePos.y) *
              (Capture.region cam subframe).frame.width +
            (x + (Capture.region cam subframe).subframePos.x))) ∧
      (0 ≤ (subframe.y + y) * cam.checkBinning.1.FullSize.x + (subframe.x + x) ∧
       (subframe.y + y) * cam.checkBinning.1.FullSize.x + (subframe.x + x) <
          cam.checkBinning.1.FullSize.x * cam.checkBinning.1.FullSize.y) ∧
      (subframe.x + subframe.width + 32 ≤ 2147483647 →
       subframe.y + subframe.height + 32 ≤ 2147483647 →
       0 ≤ (y + (Capture.region cam subframe).subframePos.y) *
              (Capture.region cam subframe).frame.width +
            (x + (Capture.region cam subframe).subframePos.x) ∧
       (y + (Capture.region cam subframe).subframePos.y) *
              (Capture.region cam subframe).frame.width +
            (x + (Capture.region cam subframe).subframePos.x) <
          (Capture.region cam subframe).frame.width *
            (Capture.region cam subframe).frame.height)) ∧
    (∀ X Y : Int, 0 ≤ X → X < cam.checkBinning.1.FullSize.x →
      0 ≤ Y → Y < cam.checkBinning.1.FullSize.y →
      ¬ (subframe.x ≤ X ∧ X < subframe.x + subframe.width ∧
         subframe.y ≤ Y ∧ Y < subframe.y + subframe.height) →
      (Capture.composed cam img subframe env buffer).ImageData
          (Y * cam.checkBinning.1.FullSize.x + X) = 0) ∧
    (Capture.composed cam img subframe env buffer).NPixels =
      cam.checkBinning.1.FullSize.x * cam.checkBinning.1.FullSize.y ∧
    (Capture.composed cam img subframe env buffer).Subframe = subframe ∧
    (∀ (duration : Int) (options : CaptureOptions),
      (Capture cam duration img options subframe env).ret = some false →
      (Capture cam duration img options subframe env).img =
        (postProcess (Capture cam duration img options subframe env).cam options env
          (Capture.composed cam img subframe env
            (Capture cam duration img options subframe env).cam.m_buffer)).1) := by
  have huse2 : cam.checkBinning.1.UseSubframes = true := by
    rw [checkBinning_fst]; exact huse
  obtain ⟨hdata, hnp, hsf⟩ :=
    composed_subframe cam img subframe env buffer
      (region_useSubframe cam subframe huse hw hh) hinit
  rw [hdata]
  have hFW : 0 ≤ cam.checkBinning.1.FullSize.x := by omega
  have hhn : ((subframe.height.toNat : Nat) : Int) = subframe.height :=
    Int.toNat_of_nonneg (le_of_lt hh)
  have hwn : ((subframe.width.toNat : Nat) : Int) = subframe.width :=
    Int.toNat_of_nonneg (le_of_lt hw)
  refine ⟨?_, ?_, hnp, hsf, fun duration options hret =>
    Capture_success_img cam duration img options subframe env hret⟩
  · intro x y hx1 hx2 hy1 hy2
    have e : (subframe.y + y) * cam.checkBinning.1.FullSize.x + (subframe.x + x) =
        (y + subframe.y) * cam.checkBinning.1.FullSize.x + subframe.x + x := by ring
    refine ⟨?_, ?_, ?_⟩
    · rw [e, copyRows_inside buffer _ cam.checkBinning.1.FullSize.x subframe _ (le_of_lt hw)
        hx hxw _ _ 0 y x hy1 (by rw [hhn]; omega) hx1 hx2]
      congr 2; ring
    · have h1 : 0 ≤ subframe.y + y := by omega
      have h2 : subframe.y + y < cam.checkBinning.1.FullSize.y := by omega
      have h4 := row_offset_step _ _ cam.checkBinning.1.FullSize.x hFW h2
      have h5 := Int.mul_nonneg h1 hFW
      have h6 : cam.checkBinning.1.FullSize.x * cam.checkBinning.1.FullSize.y =
          cam.checkBinning.1.FullSize.y * cam.checkBinning.1.FullSize.x := Int.mul_comm _ _
      constructor <;> omega
    · intro hxo hyo
      have hreg : Capture.region cam subframe =
          ⟨true,
           ⟨32 * (subframe.x / 32), 32 * (subframe.y / 32),
            32 * ((subframe.x + subframe.width + 31) / 32) - 32 * (subframe.x / 32),
            32 * ((subframe.y + subframe.height + 31) / 32) - 32 * (subframe.y / 32)⟩,
           ⟨subframe.x - 32 * (subframe.x / 32), subframe.y - 32 * (subframe.y / 32)⟩⟩ := by
        unfold Capture.region
        rw [huse2]
        exact captureRegion_eq _ subframe hx hy hw hh hxo hyo
      rw [hreg]
      simp only
      generalize hfw : 32 * ((subframe.x + subframe.width + 31) / 32) -
        32 * (subframe.x / 32) = fw
      generalize hfh : 32 * ((subframe.y + subframe.height + 31) / 32) -
        32 * (subframe.y / 32) = fh
      have h1 : 0 ≤ y + (subframe.y - 32 * (subframe.y / 32)) := by omega
      have h2 : y + (subframe.y - 32 * (subframe.y / 32)) < fh := by omega
      have h3 : 0 ≤ fw := by omega
      have h4 := row_offset_step _ _ fw h3 h2
      have h5 := Int.mul_nonneg h1 h3
      have h6 : fw * fh = fh * fw := Int.mul_comm _ _
      constructor <;> omega
  · intro X Y hX1 hX2 hY1 hY2 hout
    rw [copyRows_outside]
    · have h4 := row_offset_step _ _ cam.checkBinning.1.FullSize.x hFW hY2
      have h5 := Int.mul_nonneg hY1 hFW
      have h6 : cam.checkBinning.1.FullSize.x * cam.checkBinning.1.FullSize.y =
          cam.checkBinning.1.FullSize.y * cam.checkBinning.1.FullSize.x := Int.mul_comm _ _
      have hin : 0 ≤ Y * cam.checkBinning.1.FullSize.x + X ∧
          Y * cam.checkBinning.1.FullSize.x + X <
            cam.checkBinning.1.FullSize.x * cam.checkBinning.1.FullSize.y := by
        constructor <;> omega
      simp only [hin, and_self, if_true]
    · intro r hr1 hr2
      rw [hwn]
      rw [hhn] at hr2
      rcases lt_trichotomy Y (r + subframe.y) with hlt | heq | hgt
      · have h4 := row_offset_step _ _ cam.checkBinning.1.FullSize.x hFW hlt
        omega
      · rw [← heq]
        intro hc
        apply hout
        omega
      · have h4 := row_offset_step _ _ cam.checkBinning.1.FullSize.x hFW hgt
        omega

/-- C2 on the sample camera with the sub-frame (37, 50) of 3 by 2, whose region
is (32, 32) of 32 by 32 with offset (5, 18): pixel (38, 51) holds byte 614 of
the frame, which is 102, and pixel (36, 51), left of the sub-frame, holds 0. -/
theorem subframe_composite_roundtrip_witness :
    (Capture.composed sampleCamera sampleImage ⟨37, 50, 3, 2⟩ (sampleEnv [framePoll])
        sampleFrame).ImageData (51 * 1280 + 38) = widen (sampleFrame (19 * 32 + 6)) ∧
    (Capture.composed sampleCamera sampleImage ⟨37, 50, 3, 2⟩ (sampleEnv [framePoll])
        sampleFrame).ImageData (51 * 1280 + 38) = 102 ∧
    (Capture.composed sampleCamera sampleImage ⟨37, 50, 3, 2⟩ (sampleEnv [framePoll])
        sampleFrame).ImageData (51 * 1280 + 36) = 0 :=
  ⟨((subframe_composite_roundtrip sampleCamera sampleImage ⟨37, 50, 3, 2⟩
      (sampleEnv [framePoll]) sampleFrame rfl (by decide) (by decide) (by decide)
      (by decide) (by decide) (by decide) rfl).1 1 1
      (by decide) (by decide) (by decide) (by decide)).1,
   by decide,
   (subframe_composite_roundtrip sampleCamera sampleImage ⟨37, 50, 3, 2⟩
      (sampleEnv [framePoll]) sampleFrame rfl (by decide) (by decide) (by decide)
      (by decide) (by decide) (by decide) rfl).2.1 36 51
      (by decide) (by decide) (by decide) (by decide) (by decide)⟩

/-! ## C10: binning bookkeeping in `Connect` and `Capture` -/

theorem drop_cons_facts (l : List Int) (i : Nat) (v : Int) (rest : List Int)
    (h : l.drop i = v :: rest) :
    i < l.length ∧ l.getD i 0 = v ∧ l.drop (i + 1) = rest := by
  have h1 : (l.drop i)[0]? = some v := by rw [h]; simp
  rw [List.getElem?_drop] at h1
  simp only [Nat.add_zero] at h1
  refine ⟨?_, ?_, ?_⟩
  · by_contra hc
    have h2 : l[i]? = none := by simp; omega
    rw [h2] at h1; simp at h1
  · simp [List.getD_eq_getElem?_getD, h1]
  · have h3 := List.drop_drop 1 i l
    rw [h] at h3
    simpa using h3.symm

/-- The loop of lines 235-242 on an array that holds its zero terminator: the
result bounds the starting value and every factor before the terminator,
and it is the starting value or one of these factors. -/
theorem maxBinLoop_terminated (info : ASI_CAMERA_INFO) (l : List Int) :
    ∀ (i k : Nat) (m : Int), info.SupportedBins.drop i = l → 0 ∈ l → l.length ≤ k →
      m ≤ maxBinLoop info k i m ∧
      (∀ b ∈ l.takeWhile (fun b => b ≠ 0), b ≤ maxBinLoop info k i m) ∧
      (maxBinLoop info k i m = m ∨
        maxBinLoop info k i m ∈ l.takeWhile (fun b => b ≠ 0)) := by
  induction l with
  | nil => intro i k m _ h0; simp at h0
  | cons v rest ih =>
    intro i k m hdrop h0 hk
    obtain ⟨hi, hv, hrest⟩ := drop_cons_facts _ _ _ _ hdrop
    have hbin : info.binAt i = v := by
      unfold ASI_CAMERA_INFO.binAt; rw [if_pos hi, hv]
    cases k with
    | zero => simp at hk
    | succ k =>
      unfold maxBinLoop
      rw [hbin]
      by_cases hv0 : v = 0
      · subst hv0
        simp
      · have h0r : 0 ∈ rest := by
          rcases List.mem_cons.mp h0 with h | h
          · exact absurd h.symm hv0
          · exact h
        have hk2 : rest.length ≤ k := by simp at hk; omega
        have htw : (v :: rest).takeWhile (fun b => b ≠ 0) =
            v :: rest.takeWhile (fun b => b ≠ 0) := by
          simp [List.takeWhile_cons, hv0]
        rw [if_neg hv0, htw]
        by_cases hvm : v > m
        · obtain ⟨a1, a2, a3⟩ := ih (i + 1) k v hrest h0r hk2
          rw [if_pos hvm]
          refine ⟨by omega, ?_, ?_⟩
          · intro b hb
            rcases List.mem_cons.mp hb with h | h
            · rw [h]; exact a1
            · exact a2 b h
          · rcases a3 with h | h
            · right; rw [h]; exact List.mem_cons_self _ _
            · right; exact List.mem_cons_of_mem _ h
        · obtain ⟨a1, a2, a3⟩ := ih (i + 1) k m hrest h0r hk2
          rw [if_neg hvm]
          refine ⟨a1, ?_, ?_⟩
          · intro b hb
            rcases List.mem_cons.mp hb with h | h
            · rw [h]; omega
            · exact a2 b h
          · rcases a3 with h | h
            · left; exact h
            · right; exact List.mem_cons_of_mem _ h

/-- C10 as stated fails: with the supported factors 1, 2, 4 and a prior
`Binning` of 3, `Connect` succeeds and leaves `Binning` at 3, which is not a
supported factor. -/
theorem connect_binning_not_member :
    supportedBinningFactors sampleInfo = [1, 2, 4] ∧
    (1 : Int) ≤ ({ sampleCamera with Binning := 3 } : Camera).Binning ∧
    (Connect { sampleCamera with Binning := 3 } sampleConnectEnv).ret = false ∧
    (Connect { sampleCamera with Binning := 3 } sampleConnectEnv).cam.Binning = 3 ∧
    (Connect { sampleCamera with Binning := 3 } sampleConnectEnv).cam.Binning ∉
      supportedBinningFactors sampleInfo := by
  decide

theorem maxBinLoop_ge (info : ASI_CAMERA_INFO) (k : Nat) :
    ∀ (i : Nat) (m : Int), m ≤ maxBinLoop info k i m := by
  induction k with
  | zero => intro i m; exact le_refl _
  | succ k ih =>
    intro i m
    unfold maxBinLoop
    split
    · exact le_refl _
    · split
      · exact le_trans (by omega) (ih (i + 1) (info.binAt i))
      · exact ih (i + 1) m

theorem applyControlCaps_fields (acc : Camera × List Event) (c : Option ASI_CONTROL_CAPS) :
    (applyControlCaps acc c).1.Binning = acc.1.Binning ∧
    (applyControlCaps acc c).1.MaxBinning = acc.1.MaxBinning ∧
    (applyControlCaps acc c).1.m_prevBinning = acc.1.m_prevBinning ∧
    (applyControlCaps acc c).1.m_maxSize = acc.1.m_maxSize ∧
    (applyControlCaps acc c).1.FullSize = acc.1.FullSize := by
  unfold applyControlCaps
  cases c with
  | none => exact ⟨rfl, rfl, rfl, rfl, rfl⟩
  | some c =>
    cases hct : c.ControlType <;> cases hw : c.IsWritable <;> simp [hct, hw]

theorem foldl_applyControlCaps (caps : List (Option ASI_CONTROL_CAPS)) :
    ∀ acc : Camera × List Event,
      (caps.foldl applyControlCaps acc).1.Binning = acc.1.Binning ∧
      (caps.foldl applyControlCaps acc).1.MaxBinning = acc.1.MaxBinning ∧
      (caps.foldl applyControlCaps acc).1.m_prevBinning = acc.1.m_prevBinning ∧
      (caps.foldl applyControlCaps acc).1.m_maxSize = acc.1.m_maxSize ∧
      (caps.foldl applyControlCaps acc).1.FullSize = acc.1.FullSize := by
  induction caps with
  | nil => intro acc; exact ⟨rfl, rfl, rfl, rfl, rfl⟩
  | cons c rest ih =>
    intro acc
    rw [List.foldl_cons]
    obtain ⟨h1, h2, h3, h4, h5⟩ := ih (applyControlCaps acc c)
    obtain ⟨g1, g2, g3, g4, g5⟩ := applyControlCaps_fields acc c
    exact ⟨h1.trans g1, h2.trans g2, h3.trans g3, h4.trans g4, h5.trans g5⟩

/-- The binning bookkeeping a successful `Connect` leaves behind. -/
theorem Connect_success (cam : Camera) (env : ConnectEnv) (info : ASI_CAMERA_INFO)
    (hprop : env.property = some info) (hret : (Connect cam env).ret = false) :
    (Connect cam env).cam.MaxBinning = maxSupportedBin info ∧
    (Connect cam env).cam.Binning =
      (if cam.Binning > maxSupportedBin info then maxSupportedBin info else cam.Binning) ∧
    (Connect cam env).cam.m_maxSize = ⟨info.MaxWidth, info.MaxHeight⟩ ∧
    (Connect cam env).cam.FullSize =
      ⟨idiv info.MaxWidth (Connect cam env).cam.Binning,
       idiv info.MaxHeight (Connect cam env).cam.Binning⟩ ∧
    (Connect cam env).cam.m_prevBinning = (Connect cam env).cam.Binning := by
  unfold Connect at hret ⊢
  rw [hprop] at hret ⊢
  by_cases h1 : env.dllLoaded = true
  swap
  · simp [h1] at hret
  by_cases h2 : env.numCameras = 0
  · simp [h1, h2] at hret
  by_cases h3 : env.idx < 0 ∨ env.idx ≥ env.numCameras
  · simp [h1, h2, h3] at hret
  by_cases h4 : env.openOk = true
  swap
  · simp [h1, h2, h3, h4] at hret
  by_cases h5 : env.initOk = true
  swap
  · simp [h1, h2, h3, h4, h5] at hret
  cases hc : env.controls with
  | none => simp [h1, h2, h3, h4, h5, hc] at hret
  | some caps =>
    simp only [h1, h2, h3, h4, h5, hc, Bool.not_true, Bool.false_eq_true, if_false]
    obtain ⟨e1, e2, e3, e4, e5⟩ := foldl_applyControlCaps caps
      ({ (if cam.Binning > maxSupportedBin info then
            { cam with m_cameraId := env.idx, Connected := true, m_isColor := info.IsColorCam,
                       MaxBinning := maxSupportedBin info, Binning := maxSupportedBin info }
          else
            { cam with m_cameraId := env.idx, Connected := true, m_isColor := info.IsColorCam,
                       MaxBinning := maxSupportedBin info }) with
          m_maxSize := ⟨info.MaxWidth, info.MaxHeight⟩,
          FullSize := ⟨idiv info.MaxWidth
              (if cam.Binning > maxSupportedBin info then maxSupportedBin info
               else cam.Binning),
            idiv info.MaxHeight
              (if cam.Binning > maxSupportedBin info then maxSupportedBin info
               else cam.Binning)⟩,
          m_prevBinning := (if cam.Binning > maxSupportedBin info then maxSupportedBin info
               else cam.Binning),
          HasGainControl := false, HasCooler := false }, [])
    by_cases hb : cam.Binning > maxSupportedBin info
    · simp only [hb, if_true] at e1 e2 e3 e4 e5 ⊢
      refine ⟨e2, e1, e4, ?_, ?_⟩
      · rw [e5, e1]
      · rw [e3, e1]
    · simp only [hb, if_false] at e1 e2 e3 e4 e5 ⊢
      refine ⟨e2, e1, e4, ?_, ?_⟩
      · rw [e5, e1]
      · rw [e3, e1]

/-- The relation between `FullSize`, `m_maxSize` and `m_prevBinning` survives
every `Capture` call, whether or not `img.Init` passes. -/
theorem Capture_keeps_relation (cam : Camera) (duration : Int) (img : usImage)
    (options : CaptureOptions) (subframe : wxRect) (env : CaptureEnv)
    (hinv : cam.FullSize =
      ⟨idiv cam.m_maxSize.x cam.m_prevBinning, idiv cam.m_maxSize.y cam.m_prevBinning⟩) :
    (Capture cam duration img options subframe env).cam.FullSize =
      ⟨idiv (Capture cam duration img options subframe env).cam.m_maxSize.x
         (Capture cam duration img options subframe env).cam.m_prevBinning,
       idiv (Capture cam duration img options subframe env).cam.m_maxSize.y
         (Capture cam duration img options subframe env).cam.m_prevBinning⟩ := by
  have hfull : cam.checkBinning.1.FullSize =
      ⟨idiv cam.m_maxSize.x cam.Binning, idiv cam.m_maxSize.y cam.Binning⟩ := by
    rw [checkBinning_fst]
    by_cases hb : cam.Binning = cam.m_prevBinning
    · simp [hb, hinv]
    · simp [hb]
  by_cases hinit : env.allocFails = true
  · have hr : (Capture cam duration img options subframe env).cam = cam.checkBinning.1 := by
      unfold Capture; simp [usImage.Init, hinit]
    rw [hr, hfull, checkBinning_fst]
  · have hinit2 : env.allocFails = false := by simpa using hinit
    obtain ⟨_, hP, _, hF, hM, _⟩ :=
      Capture_leaves cam duration img options subframe env hinit2
    rw [hF, hP, hM, hfull]

/-- C10, amended. After a successful `Connect` on a camera whose prior `Binning`
is at least 1: `MaxBinning` is the value of the scan of `info.SupportedBins`,
which is at least 1; `Binning` is the prior `Binning` clamped from above to
`MaxBinning`, so `1 <= Binning <= MaxBinning`; `FullSize == m_maxSize / Binning`
and `m_prevBinning == Binning`. When the array holds its zero terminator,
`MaxBinning` bounds every supported factor and is 1 or one of them, and, with
the factor 1 reported, `Binning` is a supported factor whenever the prior
`Binning` was one or exceeded `MaxBinning`. In every
`Capture` entered with `FullSize == m_maxSize / m_prevBinning`, after the
binning check `FullSize == m_maxSize / Binning` and `m_prevBinning == Binning`
hold, and the call leaves `FullSize == m_maxSize / m_prevBinning` behind. -/
theorem connect_binning_invariant (cam : Camera) (env : ConnectEnv) (info : ASI_CAMERA_INFO)
    (hprop : env.property = some info) (hB : 1 ≤ cam.Binning)
    (hret : (Connect cam env).ret = false) :
    (Connect cam env).cam.MaxBinning = maxSupportedBin info ∧
    1 ≤ (Connect cam env).cam.MaxBinning ∧
    (Connect cam env).cam.Binning = min cam.Binning (Connect cam env).cam.MaxBinning ∧
    1 ≤ (Connect cam env).cam.Binning ∧
    (Connect cam env).cam.Binning ≤ (Connect cam env).cam.MaxBinning ∧
    (Connect cam env).cam.FullSize =
      ⟨idiv (Connect cam env).cam.m_maxSize.x (Connect cam env).cam.Binning,
       idiv (Connect cam env).cam.m_maxSize.y (Connect cam env).cam.Binning⟩ ∧
    (Connect cam env).cam.m_prevBinning = (Connect cam env).cam.Binning ∧
    (0 ∈ info.SupportedBins →
      (∀ b ∈ supportedBinningFactors info, b ≤ (Connect cam env).cam.MaxBinning) ∧
      ((Connect cam env).cam.MaxBinning = 1 ∨
        (Connect cam env).cam.MaxBinning ∈ supportedBinningFactors info) ∧
      (1 ∈ supportedBinningFactors info →
        cam.Binning ∈ supportedBinningFactors info ∨
          cam.Binning > (Connect cam env).cam.MaxBinning →
        (Connect cam env).cam.Binning ∈ supportedBinningFactors info)) ∧
    (∀ c : Camera,
      c.FullSize = ⟨idiv c.m_maxSize.x c.m_prevBinning, idiv c.m_maxSize.y c.m_prevBinning⟩ →
      (c.checkBinning.1.FullSize =
          ⟨idiv c.checkBinning.1.m_maxSize.x c.checkBinning.1.Binning,
           idiv c.checkBinning.1.m_maxSize.y c.checkBinning.1.Binning⟩ ∧
        c.checkBinning.1.m_prevBinning = c.checkBinning.1.Binning ∧
        c.checkBinning.1.Binning = c.Binning) ∧
      ∀ (duration : Int) (img : usImage) (options : CaptureOptions) (subframe : wxRect)
        (cenv : CaptureEnv),
        (Capture c duration img options subframe cenv).cam.FullSize =
          ⟨idiv (Capture c duration img options subframe cenv).cam.m_maxSize.x
             (Capture c duration img options subframe cenv).cam.m_prevBinning,
           idiv (Capture c duration img options subframe cenv).cam.m_maxSize.y
             (Capture c duration img options subframe cenv).cam.m_prevBinning⟩) := by
  obtain ⟨hM, hBin, hSize, hFull, hPrev⟩ := Connect_success cam env info hprop hret
  have hge : 1 ≤ maxSupportedBin info := maxBinLoop_ge info _ 0 1
  have hBin2 : (Connect cam env).cam.Binning = min cam.Binning (maxSupportedBin info) := by
    rw [hBin]
    by_cases h : cam.Binning > maxSupportedBin info
    · rw [if_pos h, min_eq_right (le_of_lt h)]
    · rw [if_neg h, min_eq_left (by omega)]
  refine ⟨hM, by rw [hM]; exact hge, by rw [hM]; exact hBin2, ?_, ?_, ?_, hPrev, ?_, ?_⟩
  · rw [hBin2]; exact le_min hB hge
  · rw [hBin2, hM]; exact min_le_right _ _
  · rw [hFull, hSize]
  · intro h0
    obtain ⟨_, a2, a3⟩ := maxBinLoop_terminated info info.SupportedBins 0
      (info.SupportedBins.length + 1) 1 rfl h0 (Nat.le_succ _)
    have a2m : ∀ b ∈ supportedBinningFactors info, b ≤ maxSupportedBin info := a2
    have a3m : maxSupportedBin info = 1 ∨
        maxSupportedBin info ∈ supportedBinningFactors info := a3
    rw [hM]
    refine ⟨a2m, a3m, ?_⟩
    intro h1 hprior
    rw [hBin]
    rcases hprior with hp | hp
    · have hle := a2m _ hp
      rw [if_neg (not_lt.mpr hle)]
      exact hp
    · rw [if_pos hp]
      rcases a3m with h | h
      · rw [h]; exact h1
      · exact h
  · intro c hinv
    refine ⟨?_, fun duration img options subframe cenv =>
      Capture_keeps_relation c duration img options subframe cenv hinv⟩
    rw [checkBinning_fst]
    by_cases hb : c.Binning = c.m_prevBinning
    · simp [hb, hinv]
    · simp [hb]

/-- C10 amended, on the sample device with a prior `Binning` of 8: the factors
are 1, 2 and 4, so `Connect` clamps `Binning` to 4 and sets `FullSize` to
320 by 240. -/
theorem connect_binning_invariant_witness :
    (Connect { sampleCamera with Binning := 8 } sampleConnectEnv).cam.Binning = 4 ∧
    (Connect { sampleCamera with Binning := 8 } sampleConnectEnv).cam.FullSize = ⟨320, 240⟩ ∧
    (Connect { sampleCamera with Binning := 8 } sampleConnectEnv).cam.m_prevBinning =
      (Connect { sampleCamera with Binning := 8 } sampleConnectEnv).cam.Binning :=
  ⟨by decide, by decide,
   (connect_binning_invariant { sampleCamera with Binning := 8 } sampleConnectEnv sampleInfo
      rfl (by decide) (by decide)).2.2.2.2.2.2.1⟩

end CamZWO
